import Mathlib

/-!
# Shallow embedding of the "Robot Assembly Line" card-game engine

This file embeds, in Lean 4, the data model and the turn-resolution code of
the `shift_card_game` repository (`src/game/state.py`, `src/game/cards.py`,
`src/game/effects.py`, `src/game/engine.py`), and settles a fixed list of
claims about that code.

Modelling conventions:
* Python lists become `List`; Python `dict` metadata bags become structures of
  `Option` fields (one field per key actually used by the embedded code).
* Python exceptions (e.g. `list.pop` with an out-of-range index) are modelled
  by making the affected functions return `Option _`, with `none` standing for
  a raised exception.
* `random.Random` shuffling is modelled by passing the post-shuffle permutation
  explicitly; the *global* `random.shuffle` used by `effect_recruiter` is
  modelled as an explicit function parameter `gshuffle`, standing for the
  permutation that the process-wide generator would produce at that moment.
* Python `while` loops are compiled to structural recursion on an explicit
  fuel argument; at each call site the fuel is the bound that the loop's own
  progress argument guarantees (each iteration of a hand-limit loop removes
  one card, each iteration of a market refill moves one deck card), so fuel
  exhaustion is unreachable and `none` from fuel exhaustion coincides with the
  Python semantics.
* The engine embeds the subset of the card catalogue that the claims exercise
  (`Calibration Unit`, `Mimic`, `Chain Reaction`, `Embargo`, `Snare`,
  `Tripwire`, `Boomerang`, `Farewell Unit`, `Recruiter`).  Engine branches
  that read metadata keys which no card of this subset ever writes
  (`kickback_pushed_card`, `compressor_pushed_cards`, `sniper_target`) are
  provably dead in the modelled fragment and are noted where omitted.
-/

set_option maxRecDepth 10000

namespace Shift

/-- `Icon` enum from `state.py`: card icon types for adjacency conditions. -/
inductive Icon where
  | gear
  | spark
  | chip
  | heart
deriving DecidableEq, Repr

/-- `CardType` enum from `state.py`. -/
inductive CardType where
  | center
  | exit
  | trap
deriving DecidableEq, Repr

/-- `Side` enum from `state.py`. -/
inductive Side where
  | left
  | right
deriving DecidableEq, Repr

/-- `DrawChoice` enum from `state.py`. -/
inductive DrawChoice where
  | deck
  | market
deriving DecidableEq, Repr

/-- `EventType` enum from `state.py`. -/
inductive EventType where
  | cardScored
  | cardDrawnMarket
  | cardPlayed
deriving DecidableEq, Repr

/-- Names of the registered cards embedded from `cards.py` (the subset the
claims exercise).  Python `Card.__eq__` compares names, so a name value is the
whole identity of a card template. -/
inductive CardName where
  | calibrationUnit
  | mimic
  | chainReaction
  | embargo
  | snare
  | tripwire
  | falseFlag
  | boomerang
  | farewellUnit
  | recruiter
deriving DecidableEq, Repr

/-- `Card` template from `state.py` restricted to the fields the engine reads
(`name`, `icon`, `card_type`); the bound effect routine and trigger predicate
are dispatched on `name` by the interpreter below, mirroring the function
values bound in `cards.py`. -/
structure Card where
  name : CardName
  icon : Option Icon
  cardType : CardType
deriving DecidableEq, Repr

/-- The card registry entries of `cards.py` for the embedded subset
(icon and card type copied from the `register_card` calls). -/
def cardOf : CardName → Card
  | .calibrationUnit => ⟨.calibrationUnit, some .gear, .center⟩
  | .mimic => ⟨.mimic, some .chip, .center⟩
  | .chainReaction => ⟨.chainReaction, some .spark, .center⟩
  | .embargo => ⟨.embargo, some .gear, .center⟩
  | .snare => ⟨.snare, some .gear, .trap⟩
  | .tripwire => ⟨.tripwire, some .spark, .trap⟩
  | .falseFlag => ⟨.falseFlag, some .chip, .trap⟩
  | .boomerang => ⟨.boomerang, some .spark, .exit⟩
  | .farewellUnit => ⟨.farewellUnit, some .heart, .exit⟩
  | .recruiter => ⟨.recruiter, some .chip, .exit⟩

/-- The metadata bag of a `CardInPlay` (`state.py` uses a string-keyed dict;
here one `Option`/`Bool` field per key written or read by the embedded code).
The source also writes a `mimic_target` key holding a card reference, but no
code ever reads it, so it is not represented. -/
structure Metadata where
  trapSide : Option Side := none
  snareCard : Option CardName := none
  cancelScore : Option Int := none
  redirectCard : Option CardName := none
  ambushStealCard : Option CardName := none
  nullifyCard : Option CardName := none
  lastCenterScore : Option Int := none
  mimickedIcon : Option Icon := none
  allIcons : Bool := false
  patienceTurn : Option Int := none
  exitSide : Option Side := none
  phoenixToDeck : Bool := false
  skipMarket : Bool := false
  pendingTugOfWar : Bool := false
  pendingSpiteModule : Bool := false
  pendingSabotage : Bool := false
deriving DecidableEq, Repr

/-- `CardInPlay` from `state.py`: a card instance in a player's row. -/
structure CardInPlay where
  card : Card
  faceUp : Bool := true
  metadata : Metadata := {}
deriving DecidableEq, Repr

/-- `CardInPlay.icon` property: face-down cards don't expose their icon. -/
def CardInPlay.iconP (c : CardInPlay) : Option Icon :=
  if c.faceUp then c.card.icon else none

/-- `CardInPlay.effective_icons` property from `state.py` (lines 118–127):
all icons if `all_icons` is set; the empty set if face-down or the card has
no icon; otherwise the singleton of the card's own icon.  (Note: the source
never consults the `mimicked_icon` metadata here.) -/
def CardInPlay.effectiveIcons (c : CardInPlay) : Finset Icon :=
  if ¬ c.faceUp then ∅
  else if c.metadata.allIcons then {.gear, .spark, .chip, .heart}
  else match c.card.icon with
    | none => ∅
    | some i => {i}

/-- `PlayAction` from `state.py`. -/
structure PlayAction where
  handIndex : Nat
  side : Side
  faceDown : Bool := false
deriving DecidableEq, Repr

/-- `ActiveEffect.effect_type` values used by the embedded code. -/
inductive EffectType where
  | embargo
  | boomerangCooldown
  | roadblock
deriving DecidableEq, Repr

/-- `ActiveEffect` from `state.py`; `data` is flattened into the two keys the
embedded code uses (`card_name` for boomerang cooldowns, `blocked_side` for
roadblocks). -/
structure ActiveEffect where
  effectType : EffectType
  playerIdx : Nat
  cardName : Option CardName := none
  blockedSide : Option Side := none
  expiresTurn : Option Int := none
deriving DecidableEq, Repr

/-- `Event` from `state.py`.  The `data` dict only ever carries a `side` key
in the embedded code. -/
structure Event where
  eventType : EventType
  playerIdx : Nat
  cardName : Option CardName := none
  icon : Option Icon := none
  points : Int := 0
  side : Option Side := none
deriving DecidableEq, Repr

/-- `PlayerState` from `state.py`. -/
structure PlayerState where
  hand : List Card := []
  row : List CardInPlay := []
  score : Int := 0
deriving DecidableEq, Repr

/-- `GameState` from `state.py`, restricted to the fields the engine code
reads or writes (the `game_log` list and its cursor are only appended to by
UI code outside the engine and are omitted).  `card_scores` is kept as the
chronological list of `record_card_score` calls. -/
structure GameState where
  players : List PlayerState
  market : List Card := []
  deck : List Card := []
  turnCounter : Int := 1
  currentPlayer : Nat := 0
  activeEffects : List ActiveEffect := []
  gameOver : Bool := false
  turnEvents : List Event := []
  pendingHandLimitChecks : List (Nat × CardName) := []
  cardScores : List (CardName × Int) := []
deriving DecidableEq, Repr

/-- Read a player's state (Python `state.players[i]`; out-of-range reads are
modelled by a default, which the engine never exercises since indices are
always `0` or `1 - 0`). -/
def GameState.player (s : GameState) (i : Nat) : PlayerState :=
  s.players.getD i {}

/-- Functionally update player `i` (Python mutates `state.players[i]` in
place). -/
def GameState.setPlayer (s : GameState) (i : Nat) (p : PlayerState) : GameState :=
  { s with players := s.players.set i p }

/-- `GameState.record_card_score` from `state.py` (appends to the per-card
score list; modelled as appending the pair to a chronological log). -/
def GameState.recordCardScore (s : GameState) (n : CardName) (pts : Int) : GameState :=
  { s with cardScores := s.cardScores ++ [(n, pts)] }

/-- `GameState.get_center_card` from `state.py`: the center card only exists
when the row has exactly 3 cards. -/
def GameState.getCenterCard (s : GameState) (i : Nat) : Option CardInPlay :=
  if (s.player i).row.length = 3 then (s.player i).row.get? 1 else none

/-- `GameState.has_embargo` from `state.py` (lines 265–272): the market is
locked for `player_idx` iff some `embargo` active effect owned by the *other*
player has not yet passed its expiry turn. -/
def GameState.hasEmbargo (s : GameState) (playerIdx : Nat) : Bool :=
  s.activeEffects.any fun e =>
    e.effectType == .embargo && e.playerIdx != playerIdx &&
      (match e.expiresTurn with
       | none => true
       | some t => decide (t > s.turnCounter))

/-- Functionally update the card in play at index `idx` of player `i`'s row
(Python mutates the `CardInPlay` object in place while it sits in the row). -/
def GameState.updateRowCard (s : GameState) (i idx : Nat) (f : CardInPlay → CardInPlay) : GameState :=
  let p := s.player i
  match p.row.get? idx with
  | none => s
  | some c => s.setPlayer i { p with row := p.row.set idx (f c) }

/-- A value returned by `Agent.choose_effect_option` (Python returns
heterogeneous values depending on `choice_type`: an index or a `Side`).
Indices are modelled as naturals; the engine-provided option lists only ever
contain non-negative indices. -/
inductive AgentChoice where
  | idx (n : Nat)
  | side (s : Side)
deriving DecidableEq, Repr

/-- `EffectChoice` from `state.py`. -/
structure EffectChoice where
  choiceType : String
  options : List AgentChoice
  description : String

/-- The agent interface of `agents/base.py`: three decision points.  Agents
are modelled as pure functions of the observable game state (the Python
agents used in the claims' scenarios are deterministic). -/
structure AgentModel where
  chooseAction : GameState → Nat → PlayAction
  chooseDraw : GameState → Nat → DrawChoice
  chooseEffectOption : GameState → Nat → EffectChoice → AgentChoice

/-- The engine's `agents` tuple. -/
structure Agents where
  a0 : AgentModel
  a1 : AgentModel

/-- `self.agents[i]` (indices are only ever `0` or `1`). -/
def Agents.get (ag : Agents) (i : Nat) : AgentModel :=
  if i = 0 then ag.a0 else ag.a1

/-- One loop step bound of `enforce_hand_limit` / the engine's hand-limit
`while` loops: each iteration discards one card via a hand index supplied by
the agent (`list.pop(i)` with an out-of-range index raises, modelled by
`none`). -/
def enforceHandLimitFuel (ag : AgentModel) (playerIdx : Nat) :
    Nat → GameState → Option GameState
  | 0, s => if (s.player playerIdx).hand.length > 2 then none else some s
  | fuel + 1, s =>
    let hand := (s.player playerIdx).hand
    if hand.length > 2 then
      let choice : EffectChoice :=
        ⟨"discard_hand", (List.range hand.length).map .idx,
          "Choose which card to discard (hand limit is 2)"⟩
      match ag.chooseEffectOption s playerIdx choice with
      | .idx i =>
        if i < hand.length then
          enforceHandLimitFuel ag playerIdx fuel
            (s.setPlayer playerIdx { s.player playerIdx with hand := hand.eraseIdx i })
        else none
      | _ => none
    else some s

/-- `enforce_hand_limit` from `effects.py` (lines 53–79): force discards until
the hand holds at most 2 cards.  The fuel `hand.length` bounds the loop: every
successful iteration removes exactly one card. -/
def enforceHandLimit (ag : AgentModel) (s : GameState) (playerIdx : Nat) : Option GameState :=
  enforceHandLimitFuel ag playerIdx (s.player playerIdx).hand.length s

/-- Where the `CardInPlay` object passed to an effect routine currently
lives: at index `idx` of the owner's row (the usual center-trigger case), or
outside any row (a pushed-out card running its exit effect). -/
inductive EffLoc where
  | inRow (idx : Nat)
  | offRow
deriving DecidableEq, Repr

/-- The center/exit effect routines of `effects.py` for the embedded cards,
dispatched on the card name exactly as the function values bound in
`cards.py`.  Returns the points scored, the updated state, and the updated
self object (Python mutates the passed `CardInPlay` in place; when `loc` is
`inRow idx` the same update is applied to the row slot holding the object).
`gshuffle` stands for the permutation drawn from the process-global
`random` module by `effect_recruiter`.  The fuel bounds the
`chain_reaction` recursion: every nested call has a strictly smaller
computed row position, so `row.length + 1` suffices at any top-level call.
The trap cards' effect routines take an event argument and are only ever
invoked from the trap scan (`runTrapEffect` below); reaching them here would
be a Python `TypeError`, modelled by `none`. -/
def runEffect (gshuffle : List Card → List Card) (ag : AgentModel) :
    Nat → GameState → Nat → EffLoc → CardInPlay → Option (Int × GameState × CardInPlay)
  | 0, _, _, _, _ => none
  | _fuel + 1, s, playerIdx, loc, cip =>
    match cip.card.name with
    | .calibrationUnit =>
      -- effect_calibration_unit: score 2
      some (2, s, cip)
    | .farewellUnit =>
      -- effect_farewell_unit: score 3 when pushed out
      some (3, s, cip)
    | .embargo =>
      -- effect_embargo: score 1, market locked until your next turn
      let s' := { s with activeEffects := s.activeEffects ++
        [⟨.embargo, playerIdx, none, none, some (s.turnCounter + 1)⟩] }
      some (1, s', cip)
    | .mimic =>
      -- effect_mimic: store the left card's icon in the metadata bag.
      -- `row.index(card)` finds the first structurally equal element
      -- (Python __eq__), while the in-place metadata write lands on the
      -- object itself, i.e. at `loc`.
      let row := (s.player playerIdx).row
      match row.indexOf? cip with
      | none => none  -- Python ValueError from row.index
      | some pos =>
        if pos > 0 then
          let leftCard := row.get? (pos - 1)
          match leftCard with
          | none => none
          | some leftCard =>
            match leftCard.iconP with
            | some i =>
              let cip' := { cip with metadata := { cip.metadata with mimickedIcon := some i } }
              let s' := match loc with
                | .inRow idx => s.updateRowCard playerIdx idx (fun _ => cip')
                | .offRow => s
              some (2, s', cip')
            | none => some (2, s, cip)
        else some (2, s, cip)
    | .chainReaction =>
      -- effect_chain_reaction: score 2, then run the effect of the card to
      -- the left of the computed position if it is face-up and CENTER-typed,
      -- then store its score in its `last_center_score` metadata.
      let row := (s.player playerIdx).row
      match row.indexOf? cip with
      | none => none  -- Python ValueError from row.index
      | some pos =>
        if pos > 0 then
          match row.get? (pos - 1) with
          | none => none
          | some leftCard =>
            if leftCard.faceUp && leftCard.card.cardType == .center then
              match runEffect gshuffle ag _fuel s playerIdx (.inRow (pos - 1)) leftCard with
              | none => none
              | some (add, s', _) =>
                -- the left object still sits at `pos - 1`: none of the
                -- embedded center effects moves a row entry
                let s'' := s'.updateRowCard playerIdx (pos - 1)
                  (fun c => { c with metadata := { c.metadata with lastCenterScore := some add } })
                some (2 + add, s'', cip)
            else some (2, s, cip)
        else some (2, s, cip)
    | .boomerang =>
      -- effect_boomerang: return to owner's hand, forbid replay next turn
      let p := s.player playerIdx
      let s' := (s.setPlayer playerIdx { p with hand := p.hand ++ [cip.card] })
      let s'' := { s' with activeEffects := s'.activeEffects ++
        [⟨.boomerangCooldown, playerIdx, some cip.card.name, none, some (s.turnCounter + 2)⟩] }
      some (0, s'', cip)
    | .recruiter =>
      -- effect_recruiter: take an agent-chosen card from the deck, shuffle
      -- the deck with the *global* random module, enforce the hand limit
      if s.deck.isEmpty then some (0, s, cip)
      else
        let choice : EffectChoice :=
          ⟨"recruiter_search", (List.range s.deck.length).map .idx,
            "Choose which card to take from deck"⟩
        match ag.chooseEffectOption s playerIdx choice with
        | .idx i =>
          if i < s.deck.length then
            match s.deck.get? i with
            | none => none
            | some chosen =>
              let p := s.player playerIdx
              let s' := ({ s with deck := gshuffle (s.deck.eraseIdx i) }).setPlayer
                playerIdx { p with hand := p.hand ++ [chosen] }
              match enforceHandLimit ag s' playerIdx with
              | none => none
              | some s'' => some (0, s'', cip)
          else none
        | _ => none
    | .snare => none
    | .tripwire => none
    | .falseFlag => none

/-- The trap trigger predicates bound in `cards.py` for the embedded traps;
`none` for cards that have no `trigger_check`. -/
def triggerCheck (c : CardName) (ev : Event) (s : GameState) (playerIdx : Nat) :
    Option Bool :=
  match c with
  | .tripwire =>
    -- trigger_tripwire: opponent scored from a center effect
    some (ev.eventType == .cardScored && ev.playerIdx != playerIdx && decide (ev.points > 0))
  | .snare =>
    -- trigger_snare: opponent played a card whose icon is among the
    -- effective icons of this owner's center card
    some (
      if ev.eventType != .cardPlayed || ev.playerIdx == playerIdx then false
      else match s.getCenterCard playerIdx with
        | none => false
        | some center =>
          match ev.icon with
          | none => false   -- Python: `None in set_of_icons` is False
          | some i => decide (i ∈ center.effectiveIcons))
  | .falseFlag =>
    -- trigger_false_flag: opponent took a card from the market
    some (ev.eventType == .cardDrawnMarket && ev.playerIdx != playerIdx)
  | _ => none

/-- The trap effect routines of `effects.py` for the embedded traps, invoked
by the trap scan with the event that fired them; `trapIdx` is the row slot of
the trap object (metadata writes land there). -/
def runTrapEffect (c : CardName) (ev : Event) (s : GameState) (ownerIdx trapIdx : Nat) :
    Option (Int × GameState) :=
  match c with
  | .tripwire =>
    -- effect_tripwire: their score is cancelled, you score 1
    some (1, s.updateRowCard ownerIdx trapIdx
      (fun cc => { cc with metadata := { cc.metadata with cancelScore := some ev.points } }))
  | .snare =>
    -- effect_snare: their card goes to market instead of their row
    some (0, s.updateRowCard ownerIdx trapIdx
      (fun cc => { cc with metadata := { cc.metadata with snareCard := ev.cardName } }))
  | .falseFlag =>
    -- effect_false_flag: the next market draw goes to the trap owner
    some (0, s.updateRowCard ownerIdx trapIdx
      (fun cc => { cc with metadata := { cc.metadata with redirectCard := ev.cardName } }))
  | _ => none

/-- The `cancel_score` block of `GameEngine._check_traps` (engine.py lines
104–107): `if card.metadata.get("cancel_score"):` is dict truthiness, i.e.
present and non-zero; the amount is popped and subtracted from the score of
the player who caused the event. -/
def trapCancelStep (ev : Event) (opp i : Nat) (s : GameState) : GameState :=
  match (s.player opp).row.get? i with
  | none => s
  | some obj =>
    if (obj.metadata.cancelScore.getD 0) ≠ 0 then
      let amount := obj.metadata.cancelScore.getD 0
      let s' := s.updateRowCard opp i
        (fun cc => { cc with metadata := { cc.metadata with cancelScore := none } })
      s'.setPlayer ev.playerIdx
        { s'.player ev.playerIdx with
          score := (s'.player ev.playerIdx).score - amount }
    else s

/-- The `ambush_steal_card` block of `GameEngine._check_traps` (engine.py
lines 109–121): pop the tag, remove the first card of that name from the
attacker's row into the trap owner's hand, and enforce the owner's hand
limit. -/
def trapAmbushStep (ag : Agents) (ev : Event) (opp i : Nat) (s : GameState) :
    Option GameState :=
  match (s.player opp).row.get? i with
  | none => some s
  | some obj =>
    match obj.metadata.ambushStealCard with
    | none => some s
    | some stolenName =>
      let s5 := s.updateRowCard opp i
        (fun cc => { cc with metadata := { cc.metadata with ambushStealCard := none } })
      let attackerIdx := ev.playerIdx
      match (s5.player attackerIdx).row.findIdx? (fun oc => oc.card.name == stolenName) with
      | none => some s5
      | some j =>
        match (s5.player attackerIdx).row.get? j with
        | none => some s5
        | some stolen =>
          let s5a := s5.setPlayer attackerIdx
            { s5.player attackerIdx with
              row := (s5.player attackerIdx).row.eraseIdx j }
          let s5b := s5a.setPlayer opp
            { s5a.player opp with hand := (s5a.player opp).hand ++ [stolen.card] }
          enforceHandLimit (ag.get opp) s5b opp

/-- The `nullify_card` block of `GameEngine._check_traps` (engine.py lines
123–132): pop the tag, remove the first card of that name from the
attacker's row and send it to the market. -/
def trapNullifyStep (ev : Event) (opp i : Nat) (s : GameState) : GameState :=
  match (s.player opp).row.get? i with
  | none => s
  | some obj =>
    match obj.metadata.nullifyCard with
    | none => s
    | some nulName =>
      let s7 := s.updateRowCard opp i
        (fun cc => { cc with metadata := { cc.metadata with nullifyCard := none } })
      let attackerIdx := ev.playerIdx
      match (s7.player attackerIdx).row.findIdx? (fun oc => oc.card.name == nulName) with
      | none => s7
      | some j =>
        match (s7.player attackerIdx).row.get? j with
        | none => s7
        | some nullified =>
          let s7a := s7.setPlayer attackerIdx
            { s7.player attackerIdx with
              row := (s7.player attackerIdx).row.eraseIdx j }
          { s7a with market := s7a.market ++ [nullified.card] }

/-- One snapshot slot of the trap scan of `GameEngine._check_traps`
(engine.py lines 84–132).  The Python loop iterates over a *copy* of the
opponent's row; the embedded trap machinery never inserts into or removes
from the trap owner's own row (it only flips `face_up` in place and writes
metadata, while the `ambush`/`nullify` special cases mutate the attacker's
row and the market), so the `i`-th snapshot object is always the `i`-th row
entry. -/
def checkTrapsSlot (ag : Agents) (ev : Event) (opp : Nat) (s : GameState) (i : Nat) :
    Option GameState :=
  match (s.player opp).row.get? i with
  | none => some s
  | some c =>
    if c.faceUp then some s
    else
      -- `if not card.face_up and card.card.trigger_check:` — the embedded
      -- predicates ignore the card object, so it is not passed along
      match triggerCheck c.card.name ev s opp with
      | none => some s
      | some trig =>
        if ¬ trig then some s
        else
          -- trap triggers: flip face-up, then run the trap effect on the
          -- flipped object
          let s1 := s.updateRowCard opp i (fun cc => { cc with faceUp := true })
          match runTrapEffect c.card.name ev s1 opp i with
          | none => none
          | some (points, s2) =>
            let s3 := (s2.setPlayer opp
              { s2.player opp with score := (s2.player opp).score + points }).recordCardScore
                c.card.name points
            -- special trap effects, reading the (possibly updated) object
            let s4 := trapCancelStep ev opp i s3
            match trapAmbushStep ag ev opp i s4 with
            | none => none
            | some s6 => some (trapNullifyStep ev opp i s6)

/-- The trap scan of `GameEngine._check_traps` over the snapshot slots, in
row order (index 0 first).  Note that the Python loop has no `break`: every
face-down card whose predicate fires is processed. -/
def checkTrapsAux (ag : Agents) (ev : Event) (opp : Nat) :
    List Nat → GameState → Option GameState
  | [], s => some s
  | i :: rest, s =>
    match checkTrapsSlot ag ev opp s i with
    | none => none
    | some s' => checkTrapsAux ag ev opp rest s'

/-- `GameEngine._check_traps` (engine.py lines 84–132). -/
def checkTraps (ag : Agents) (ev : Event) (s : GameState) : Option GameState :=
  let opp := 1 - ev.playerIdx
  checkTrapsAux ag ev opp (List.range (s.player opp).row.length) s

/-- The per-entry discard loop of `GameEngine._enforce_pending_hand_limits`
(engine.py lines 298–325): discard down to 2 cards, offering only the hand
indices whose card name differs from the protected one (all indices if none
qualify).  Fuel: each successful iteration removes one card. -/
def pendingLimitLoop (ag : Agents) (p : Nat) (protectedName : CardName) :
    Nat → GameState → Option GameState
  | 0, s => if (s.player p).hand.length > 2 then none else some s
  | fuel + 1, s =>
    let hand := (s.player p).hand
    if hand.length > 2 then
      let options :=
        (List.range hand.length).filter fun i =>
          match hand.get? i with
          | some c => c.name ≠ protectedName
          | none => false
      let options := if options.isEmpty then List.range hand.length else options
      let choice := (ag.get p).chooseEffectOption s p
        ⟨"discard_hand", options.map .idx,
          "Choose which card to discard (cannot discard the protected card)"⟩
      match choice with
      | .idx i =>
        if i < hand.length then
          pendingLimitLoop ag p protectedName fuel
            (s.setPlayer p { s.player p with hand := hand.eraseIdx i })
        else none
      | _ => none
    else some s

/-- `GameEngine._enforce_pending_hand_limits` over the snapshot of the
`pending_hand_limit_checks` dict items; each processed entry is deleted. -/
def enforcePendingHandLimitsAux (ag : Agents) :
    List (Nat × CardName) → GameState → Option GameState
  | [], s => some s
  | (p, prot) :: rest, s =>
    match pendingLimitLoop ag p prot (s.player p).hand.length s with
    | none => none
    | some s' =>
      enforcePendingHandLimitsAux ag rest
        { s' with pendingHandLimitChecks :=
            s'.pendingHandLimitChecks.filter (fun e => e.1 ≠ p) }

/-- `GameEngine._enforce_pending_hand_limits` (engine.py lines 298–325). -/
def enforcePendingHandLimits (ag : Agents) (s : GameState) : Option GameState :=
  enforcePendingHandLimitsAux ag s.pendingHandLimitChecks s

/-- `GameEngine._check_center_trigger` (engine.py lines 215–296).  The
branches for the `kickback_pushed_card`, `compressor_pushed_cards` and
`sniper_target` metadata keys are dead in the embedded fragment: no embedded
card ever writes them.  The center object sits at row index 1 when the
effect is invoked, and none of the embedded center effects moves a row
entry, so the engine's in-place `last_center_score` write lands at index 1. -/
def checkCenterTrigger (gshuffle : List Card → List Card) (ag : Agents)
    (playerIdx : Nat) (s : GameState) : Option GameState :=
  let player := s.player playerIdx
  if player.row.length ≠ 3 then some s
  else
    match player.row.get? 1 with
    | none => some s
    | some centerCard =>
      if ¬ (centerCard.faceUp ∧ centerCard.card.cardType = .center) then some s
      else
        match runEffect gshuffle (ag.get playerIdx) (player.row.length + 1) s playerIdx
            (.inRow 1) centerCard with
        | none => none
        | some (points, s1, _) =>
          let s2 := s1.updateRowCard playerIdx 1
            (fun c => { c with metadata := { c.metadata with lastCenterScore := some points } })
          let s3 := s2.setPlayer playerIdx
            { s2.player playerIdx with score := (s2.player playerIdx).score + points }
          let s4 := s3.recordCardScore centerCard.card.name points
          let s5opt : Option GameState :=
            if points > 0 then
              let ev : Event :=
                { eventType := .cardScored
                  playerIdx := playerIdx
                  cardName := some centerCard.card.name
                  points := points }
              checkTraps ag ev { s4 with turnEvents := s4.turnEvents ++ [ev] }
            else some s4
          match s5opt with
          | none => none
          | some s5 => enforcePendingHandLimits ag s5

/-- The exit-effect head of `GameEngine._handle_pushed_card` (engine.py
lines 329–357): a face-up EXIT card scores its exit effect, and the
`pending_sabotage` tag on the (possibly updated) object makes the opponent
trash one of their edge cards.  Returns the updated pushed object and
state. -/
def pushedExitStep (gshuffle : List Card → List Card) (ag : Agents)
    (pushed : CardInPlay) (playerIdx : Nat) (s : GameState) :
    Option (CardInPlay × GameState) :=
  if pushed.faceUp ∧ pushed.card.cardType = .exit then
    match runEffect gshuffle (ag.get playerIdx) ((s.player playerIdx).row.length + 1)
        s playerIdx .offRow pushed with
    | none => none
    | some (points, s1, pushed') =>
      let s2 := (s1.setPlayer playerIdx
        { s1.player playerIdx with
          score := (s1.player playerIdx).score + points }).recordCardScore
            pushed'.card.name points
      if pushed'.metadata.pendingSabotage then
        let pushed'' := { pushed' with metadata :=
          { pushed'.metadata with pendingSabotage := false } }
        let opponentIdx := 1 - playerIdx
        let oppRow := (s2.player opponentIdx).row
        if oppRow ≠ [] then
          let options : List AgentChoice :=
            if oppRow.length > 1 then [.side .left, .side .right] else [.side .left]
          let edge := (ag.get opponentIdx).chooseEffectOption s2 opponentIdx
            ⟨"sabotage_edge", options, "Choose which edge card to trash (Sabotage)"⟩
          -- Python: `if edge_choice == Side.LEFT: pop(0) else: pop(-1)`
          let s3 := match edge with
            | .side .left => s2.setPlayer opponentIdx
                { s2.player opponentIdx with row := oppRow.eraseIdx 0 }
            | _ => s2.setPlayer opponentIdx
                { s2.player opponentIdx with row := oppRow.dropLast }
          some (pushed'', s3)
        else some (pushed'', s2)
      else some (pushed', s2)
  else some (pushed, s)

/-- The routing tail of `GameEngine._handle_pushed_card` (engine.py lines
359–377): deck top for a phoenix, market by default, then let the current
player trash a market card while the market exceeds 3 (the Python `if` runs
once; market size can only have grown by one here). -/
def pushedRouteStep (ag : Agents) (pushedF : CardInPlay) (playerIdx : Nat)
    (sA : GameState) : Option GameState :=
  let sB :=
    if pushedF.metadata.phoenixToDeck then { sA with deck := sA.deck ++ [pushedF.card] }
    else if ¬ pushedF.metadata.skipMarket then { sA with market := sA.market ++ [pushedF.card] }
    else sA
  if sB.market.length > 3 then
    let choice := (ag.get playerIdx).chooseEffectOption sB playerIdx
      ⟨"trash_market_card", (List.range sB.market.length).map .idx,
        "Choose which market card to trash"⟩
    match choice with
    | .idx i =>
      if i < sB.market.length then some { sB with market := sB.market.eraseIdx i }
      else none
    | _ => none
  else some sB

/-- `GameEngine._handle_pushed_card` (engine.py lines 327–377): run the exit
effect (`pushedExitStep`, engine.py lines 329–357), then route the card
(`pushedRouteStep`). -/
def handlePushedCard (gshuffle : List Card → List Card) (ag : Agents)
    (pushed : CardInPlay) (playerIdx : Nat) (s : GameState) : Option GameState :=
  match pushedExitStep gshuffle ag pushed playerIdx s with
  | none => none
  | some (pushedF, sA) => pushedRouteStep ag pushedF playerIdx sA

/-- The edge insertion of `GameEngine._play_card` (engine.py lines
194–208): insert the card in play at the chosen edge; if the row now
exceeds 3, pop the opposite edge and tag it with `exit_side`.  Returns the
new row and the pushed-out card, if any. -/
def insertEdge (side : Side) (cip : CardInPlay) (row : List CardInPlay) :
    List CardInPlay × Option CardInPlay :=
  match side with
  | .left =>
    let row' := cip :: row
    if row'.length > 3 then
      match row'.getLast? with
      | some last =>
        (row'.dropLast,
          some { last with metadata := { last.metadata with exitSide := some .right } })
      | none => (row', none)
    else (row', none)
  | .right =>
    let row' := row ++ [cip]
    if row'.length > 3 then
      match row' with
      | first :: restRow =>
        (restRow,
          some { first with metadata := { first.metadata with exitSide := some .left } })
      | [] => (row', none)
    else (row', none)

/-- `GameEngine._play_card` (engine.py lines 134–213).  Returns the pushed
card (if any) along with the updated state; the value `some (none, s')`
covers the out-of-range, blocked-by-cooldown, blocked-by-roadblock and
snare-diverted early returns. -/
def playCard (gshuffle : List Card → List Card) (ag : Agents) (action : PlayAction)
    (s : GameState) : Option (Option CardInPlay × GameState) :=
  let playerIdx := s.currentPlayer
  let player := s.player playerIdx
  if action.handIndex ≥ player.hand.length then some (none, s)
  else
    match player.hand.get? action.handIndex with
    | none => some (none, s)
    | some card =>
      let s0 := s.setPlayer playerIdx
        { player with hand := player.hand.eraseIdx action.handIndex }
      let cip0 : CardInPlay := { card := card, faceUp := ¬ action.faceDown, metadata := {} }
      -- store trap side for the Ambush trap
      let cip :=
        if action.faceDown ∧ card.cardType = .trap then
          { cip0 with metadata := { cip0.metadata with trapSide := some action.side } }
        else cip0
      -- blocked by a boomerang cooldown: put the card back (at the end of
      -- the hand) and stop
      if s0.activeEffects.any (fun e =>
          e.effectType == .boomerangCooldown && e.playerIdx == playerIdx &&
            e.cardName == some card.name) then
        some (none, s0.setPlayer playerIdx
          { s0.player playerIdx with hand := (s0.player playerIdx).hand ++ [card] })
      -- blocked by a Roadblock on this side: put the card back and stop
      else if s0.activeEffects.any (fun e =>
          e.effectType == .roadblock && e.playerIdx == playerIdx &&
            e.blockedSide == some action.side) then
        some (none, s0.setPlayer playerIdx
          { s0.player playerIdx with hand := (s0.player playerIdx).hand ++ [card] })
      else
        let ev : Event :=
          { eventType := .cardPlayed
            playerIdx := playerIdx
            cardName := some card.name
            icon := card.icon
            side := some action.side }
        let s1 := { s0 with turnEvents := s0.turnEvents ++ [ev] }
        match checkTraps ag ev s1 with
        | none => none
        | some s2 =>
          -- Snare check: the played card is diverted to the market
          let opponentIdx := 1 - playerIdx
          match (s2.player opponentIdx).row.findIdx?
              (fun oc => oc.metadata.snareCard == some card.name) with
          | some j =>
            let s3 := { s2 with market := s2.market ++ [card] }
            some (none, s3.updateRowCard opponentIdx j
              (fun oc => { oc with metadata := { oc.metadata with snareCard := none } }))
          | none =>
            -- insert the card at the chosen edge, ejecting the opposite
            -- edge when the row exceeds 3
            let p2 := s2.player playerIdx
            let insRes := insertEdge action.side cip p2.row
            let s5 := s2.setPlayer playerIdx { p2 with row := insRes.1 }
            match checkCenterTrigger gshuffle ag playerIdx s5 with
            | none => none
            | some s6 => some (insRes.2, s6)

/-- One refill step bound of `GameEngine._refill_market` (engine.py lines
71–74); fuel: every iteration moves one card off the deck. -/
def refillMarketFuel : Nat → GameState → GameState
  | 0, s => s
  | fuel + 1, s =>
    if s.market.length < 3 ∧ s.deck ≠ [] then
      match s.deck.getLast? with
      | some c =>
        refillMarketFuel fuel { s with market := s.market ++ [c], deck := s.deck.dropLast }
      | none => s
    else s

/-- `GameEngine._refill_market`: move deck-top cards until the market holds
3 cards or the deck is empty. -/
def refillMarket (s : GameState) : GameState :=
  refillMarketFuel s.deck.length s

/-- The draw body of `GameEngine._handle_draw` (engine.py lines 403–441),
taking the already-coerced draw choice: pop the deck top, or let the agent
pick a market card, subject to the False Flag redirection, emitting the
`card_drawn_market` event and scanning traps on a non-redirected market
draw. -/
def drawStep (ag : Agents) (playerIdx : Nat) (drawChoice : DrawChoice)
    (s : GameState) : Option GameState :=
  if drawChoice = .deck then
    match s.deck.getLast? with
    | some drawn =>
      some (({ s with deck := s.deck.dropLast }).setPlayer playerIdx
        { s.player playerIdx with hand := (s.player playerIdx).hand ++ [drawn] })
    | none => some s
  else
    if s.market = [] then some s
    else
      let mchoice := (ag.get playerIdx).chooseEffectOption s playerIdx
        ⟨"market_draw", (List.range s.market.length).map .idx,
          "Choose which market card to take"⟩
      match mchoice with
      | .side _ => none
      | .idx marketIdx =>
        if marketIdx ≥ s.market.length then none
        else
          match s.market.get? marketIdx with
          | none => none
          | some drawn =>
            let opponentIdx := 1 - playerIdx
            -- False Flag: the drawn card is redirected to the opponent
            match (s.player opponentIdx).row.findIdx?
                (fun oc => oc.metadata.redirectCard.isSome) with
            | some j =>
              let s1 := { s with market := s.market.eraseIdx marketIdx }
              let s2 := s1.setPlayer opponentIdx
                { s1.player opponentIdx with
                  hand := (s1.player opponentIdx).hand ++ [drawn] }
              some (s2.updateRowCard opponentIdx j
                (fun oc => { oc with metadata := { oc.metadata with redirectCard := none } }))
            | none =>
              let s1 := { s with market := s.market.eraseIdx marketIdx }
              let s2 := s1.setPlayer playerIdx
                { s1.player playerIdx with
                  hand := (s1.player playerIdx).hand ++ [drawn] }
              let ev : Event :=
                { eventType := .cardDrawnMarket
                  playerIdx := playerIdx
                  cardName := some drawn.name }
              checkTraps ag ev { s2 with turnEvents := s2.turnEvents ++ [ev] }

/-- `GameEngine._handle_draw` (engine.py lines 379–452): skip when neither
source is available, coerce the agent's choice to an available source, draw
(`drawStep`), then discard down to the hand limit of 2 (fuel: one card
removed per iteration). -/
def handleDraw (ag : Agents) (playerIdx : Nat) (s : GameState) : Option GameState :=
  let agent := ag.get playerIdx
  let hasEmb := s.hasEmbargo playerIdx
  let canDeck := ¬ s.deck.isEmpty
  let canMarket := ¬ s.market.isEmpty ∧ ¬ hasEmb
  if ¬ canDeck ∧ ¬ canMarket then some s
  else
    let choice0 := agent.chooseDraw s playerIdx
    let drawChoice :=
      if choice0 = .deck ∧ ¬ canDeck then DrawChoice.market
      else if choice0 = .market ∧ ¬ canMarket then DrawChoice.deck
      else choice0
    match drawStep ag playerIdx drawChoice s with
    | none => none
    | some sD => enforceHandLimitFuel agent playerIdx (sD.player playerIdx).hand.length sD

/-- `GameEngine._cleanup_expired_effects` (engine.py lines 454–459). -/
def cleanupExpiredEffects (s : GameState) : GameState :=
  { s with activeEffects := s.activeEffects.filter fun e =>
      match e.expiresTurn with
      | none => true
      | some t => decide (t > s.turnCounter) }

/-- The Python `if edge_choice == Side.LEFT: row.pop(0) else: row.pop()`
idiom shared by the tug-of-war and spite-module blocks: pop the chosen edge
card (any non-LEFT choice pops from the right). -/
def popEdge (edge : AgentChoice) (oppRow : List CardInPlay) :
    Option (CardInPlay × List CardInPlay) :=
  match edge with
  | .side .left =>
    match oppRow with
    | x :: xs => some (x, xs)
    | [] => none
  | _ =>
    match oppRow.getLast? with
    | some x => some (x, oppRow.dropLast)
    | none => none

/-- The tug-of-war block of `GameEngine._handle_pending_effects` (engine.py
lines 468–483): if the card at slot `i` carries `pending_tug_of_war` and the
opponent's row is full, the opponent picks an edge card to push out through
the push handler, then the flag is popped. -/
def pendingTugStep (gshuffle : List Card → List Card) (ag : Agents)
    (playerIdx : Nat) (i : Nat) (s : GameState) : Option GameState :=
  let opponentIdx := 1 - playerIdx
  match (s.player playerIdx).row.get? i with
  | none => some s
  | some c =>
    if c.metadata.pendingTugOfWar ∧ (s.player opponentIdx).row.length = 3 then
      let edge := (ag.get opponentIdx).chooseEffectOption s opponentIdx
        ⟨"tug_of_war_edge", [.side .left, .side .right],
          "Choose which edge card to push out"⟩
      match popEdge edge (s.player opponentIdx).row with
      | none => none
      | some (pushed, rest) =>
        let s1 := s.setPlayer opponentIdx { s.player opponentIdx with row := rest }
        match handlePushedCard gshuffle ag pushed opponentIdx s1 with
        | none => none
        | some s2 =>
          some (s2.updateRowCard playerIdx i
            (fun cc => { cc with metadata := { cc.metadata with pendingTugOfWar := false } }))
    else some s

/-- The spite-module block of `GameEngine._handle_pending_effects`
(engine.py lines 485–504): the opponent pushes out an edge card which goes
straight to the market, with no center score and no push handler. -/
def pendingSpiteStep (ag : Agents) (playerIdx : Nat) (i : Nat) (s : GameState) :
    Option GameState :=
  let opponentIdx := 1 - playerIdx
  match (s.player playerIdx).row.get? i with
  | none => some s
  | some c =>
    if c.metadata.pendingSpiteModule ∧ (s.player opponentIdx).row ≠ [] then
      let oppRow := (s.player opponentIdx).row
      let options : List AgentChoice :=
        if oppRow.length > 1 then [.side .left, .side .right] else [.side .left]
      let edge := (ag.get opponentIdx).chooseEffectOption s opponentIdx
        ⟨"spite_module_edge", options, "Choose which edge card to push out"⟩
      match popEdge edge oppRow with
      | none => none
      | some (pushed, rest) =>
        let s1 := s.setPlayer opponentIdx { s.player opponentIdx with row := rest }
        -- no center score for this push: straight to market
        let s2 := { s1 with market := s1.market ++ [pushed.card] }
        some (s2.updateRowCard playerIdx i
          (fun cc => { cc with metadata := { cc.metadata with pendingSpiteModule := false } }))
    else some s

/-- One snapshot slot of `GameEngine._handle_pending_effects` (engine.py
lines 461–504): resolve `pending_tug_of_war`, then `pending_spite_module`,
on the card currently at index `i` of the current player's row.  No embedded
card writes either flag, and the resolution only mutates the opponent's row,
the market and the flags themselves, so snapshot indices stay valid. -/
def pendingEffectsSlot (gshuffle : List Card → List Card) (ag : Agents)
    (playerIdx : Nat) (s : GameState) (i : Nat) : Option GameState :=
  match pendingTugStep gshuffle ag playerIdx i s with
  | none => none
  | some sT => pendingSpiteStep ag playerIdx i sT

/-- The snapshot loop of `GameEngine._handle_pending_effects`. -/
def handlePendingEffectsAux (gshuffle : List Card → List Card) (ag : Agents)
    (playerIdx : Nat) : List Nat → GameState → Option GameState
  | [], s => some s
  | i :: rest, s =>
    match pendingEffectsSlot gshuffle ag playerIdx s i with
    | none => none
    | some s' => handlePendingEffectsAux gshuffle ag playerIdx rest s'

/-- `GameEngine._handle_pending_effects` (engine.py lines 461–504). -/
def handlePendingEffects (gshuffle : List Card → List Card) (ag : Agents)
    (playerIdx : Nat) (s : GameState) : Option GameState :=
  handlePendingEffectsAux gshuffle ag playerIdx
    (List.range (s.player playerIdx).row.length) s

/-- `GameEngine._end_game` (engine.py lines 555–566): apply the Patience
Circuit delayed scoring and set `game_over`. -/
def endGame (s : GameState) : GameState :=
  let s' := (List.range s.players.length).foldl (fun acc i =>
    ((acc.player i).row).foldl (fun acc2 c =>
      match c.metadata.patienceTurn with
      | some pt =>
        let te := acc2.turnCounter - pt
        (acc2.setPlayer i
          { acc2.player i with score := (acc2.player i).score + te }).recordCardScore
            c.card.name te
      | none => acc2) acc) s
  { s' with gameOver := true }

/-- Steps 5–7 of `GameEngine.play_turn` (engine.py lines 537–553): refill
the market, drop expired effects, end the game when
`turn_counter >= max_turns * 2`, and otherwise advance the current player,
bumping `turn_counter` when control returns to player 0. -/
def endCheckStep (maxTurns : Int) (s4 : GameState) : Bool × GameState :=
  let s5 := cleanupExpiredEffects (refillMarket s4)
  if s5.turnCounter ≥ maxTurns * 2 then (false, endGame s5)
  else
    let cp' := 1 - s5.currentPlayer
    (true,
      { s5 with
        currentPlayer := cp'
        turnCounter := if cp' = 0 then s5.turnCounter + 1 else s5.turnCounter })

/-- Steps 1–2 of `GameEngine.play_turn` (engine.py lines 522–529): when the
hand is non-empty, request an action, play the card, and route any pushed
card through the push handler. -/
def playPhase (gshuffle : List Card → List Card) (ag : Agents) (playerIdx : Nat)
    (s : GameState) : Option GameState :=
  if (s.player playerIdx).hand ≠ [] then
    let action := (ag.get playerIdx).chooseAction s playerIdx
    match playCard gshuffle ag action s with
    | none => none
    | some (pushedOpt, s1) =>
      match pushedOpt with
      | some pushed => handlePushedCard gshuffle ag pushed playerIdx s1
      | none => some s1
  else some s

/-- `GameEngine.play_turn` (engine.py lines 506–553).  Returns
`some (true, s')` when the game continues and `some (false, s')` when it is
over. -/
def playTurn (gshuffle : List Card → List Card) (maxTurns : Int) (ag : Agents)
    (s : GameState) : Option (Bool × GameState) :=
  if s.gameOver then some (false, s)
  else
    let playerIdx := s.currentPlayer
    let s := { s with turnEvents := [] }
    match playPhase gshuffle ag playerIdx s with
    | none => none
    | some s2 =>
      -- 3. pending effects, 4. draw, 5.–7. refill, cleanup, end check
      match handlePendingEffects gshuffle ag playerIdx s2 with
      | none => none
      | some s3 =>
        match handleDraw ag playerIdx s3 with
        | none => none
        | some s4 => some (endCheckStep maxTurns s4)

/-- Deal one card off the top of the deck into player `i`'s hand (one
iteration of the setup loop of `GameEngine.__init__`). -/
def dealOne (s : GameState) (i : Nat) : GameState :=
  match s.deck.getLast? with
  | none => s
  | some c =>
    ({ s with deck := s.deck.dropLast }).setPlayer i
      { s.player i with hand := (s.player i).hand ++ [c] }

/-- `GameEngine.__init__` (engine.py lines 29–69) after the seeded shuffle:
`deck` is the shuffled card pool; deal 2 cards to each player, then fill the
market to 3. -/
def initState (deck : List Card) : GameState :=
  let s0 : GameState :=
    { players := [{}, {}]
      deck := deck
      market := []
      turnCounter := 1
      currentPlayer := 0 }
  refillMarket (dealOne (dealOne (dealOne (dealOne s0 0) 0) 1) 1)

/-- `GameEngine.run_game` limited to `n` calls of `play_turn` (the Python
loop runs until `play_turn` returns `False`; the claims only need bounded
prefixes of that loop). -/
def runTurns (gshuffle : List Card → List Card) (maxTurns : Int) (ag : Agents) :
    Nat → GameState → Option GameState
  | 0, s => some s
  | n + 1, s =>
    match playTurn gshuffle maxTurns ag s with
    | none => none
    | some (_, s') => runTurns gshuffle maxTurns ag n s'

/-!
## Concrete agents and reachable traces

The deterministic agents below drive the concrete game traces used by the
claims.  They follow the `agents/base.py` interface: a play action, a draw
choice, and a first-option default for effect choices.
-/

/-- Scripted agent: play hand index 0 face-up to the right, draw from the
deck, pick the first index for any effect choice. -/
def agentRightDeck : AgentModel :=
  { chooseAction := fun _ _ => ⟨0, .right, false⟩
    chooseDraw := fun _ _ => .deck
    chooseEffectOption := fun _ _ _ => .idx 0 }

/-- Scripted agent: play hand index 0 face-up to the right, draw from the
market, pick the first index for any effect choice. -/
def agentRightMarket : AgentModel :=
  { chooseAction := fun _ _ => ⟨0, .right, false⟩
    chooseDraw := fun _ _ => .market
    chooseEffectOption := fun _ _ _ => .idx 0 }

/-- Scripted agent for player 1: open with a face-down trap on the left,
then play face-up to the right; draw from the deck. -/
def agentTrapThenRight : AgentModel :=
  { chooseAction := fun s _ =>
      if (s.player 1).row.isEmpty then ⟨0, .left, true⟩ else ⟨0, .right, false⟩
    chooseDraw := fun _ _ => .deck
    chooseEffectOption := fun _ _ _ => .idx 0 }

/-- A card pool of 14 copies of `Snare` (`GameEngine.__init__` accepts any
`card_pool` list).  Since all entries are equal, the seeded shuffle in the
constructor maps this pool to itself for every seed, so `initState
snareDeck` is *the* initial state of every game built from this pool. -/
def snareDeck : List Card := List.replicate 14 (cardOf .snare)

/-- The 14-copy `False Flag` pool, likewise shuffle-invariant. -/
def flagDeck : List Card := List.replicate 14 (cardOf .falseFlag)

/-- Agents of the snare trace: player 0 plays right and draws from the
deck, player 1 opens with a face-down snare. -/
def snareAgents : Agents := ⟨agentRightDeck, agentTrapThenRight⟩

/-- Agents of the false-flag trace: player 0 plays right and draws from the
market, player 1 opens with a face-down false flag. -/
def flagAgents : Agents := ⟨agentRightMarket, agentTrapThenRight⟩

/-- The state after `n` turns of the snare game (seeded pool of 14 snares).
The global-RNG parameter is irrelevant: no recruiter is in the pool. -/
def snareTrace (n : Nat) : Option GameState :=
  runTurns id 10 snareAgents n (initState snareDeck)

/-- The state after `n` turns of the false-flag game. -/
def flagTrace (n : Nat) : Option GameState :=
  runTurns id 10 flagAgents n (initState flagDeck)

/-!
## Frame lemmas

`Pres s s'` records the state components that every turn phase except the
row insertion of `_play_card` leaves alone or shrinks: the turn counter, the
game-over flag, the current player, and each row's length.
-/

/-- The frame preserved by the turn phases: turn counter, game-over flag and
current player are unchanged, and no row grows. -/
def Pres (s s' : GameState) : Prop :=
  s'.turnCounter = s.turnCounter ∧ s'.gameOver = s.gameOver ∧
    s'.currentPlayer = s.currentPlayer ∧
    ∀ i, (s'.player i).row.length ≤ (s.player i).row.length

/-- The frame established by `_play_card`: like `Pres`, except the current
player's row may have grown up to the cap of 3. -/
def PresPlay (s s' : GameState) : Prop :=
  s'.turnCounter = s.turnCounter ∧ s'.gameOver = s.gameOver ∧
    s'.currentPlayer = s.currentPlayer ∧
    ∀ i, (s'.player i).row.length ≤ max (s.player i).row.length 3

/-- The face-down Tripwire object as dealt (clean metadata). -/
def tripwireFaceDown : CardInPlay := { card := cardOf .tripwire, faceUp := false }

/-- The same object after firing: face-up, metadata written and popped back
to the clean state. -/
def tripwireFaceUp : CardInPlay := { card := cardOf .tripwire, faceUp := true }

/-- `effect_tripwire` writes `cancel_score` into the (already flipped) trap
object: the object as it sits in the row between the write and the pop. -/
def tripwireCancelPending (pts : Int) : CardInPlay :=
  { card := cardOf .tripwire, faceUp := true, metadata := { cancelScore := some pts } }

/-!
## Claim C1: the end-of-game condition of `play_turn`
-/

/-- A one-card state already past the doubled threshold: `play_turn` must
end the game here. -/
def c1EndState : GameState :=
  { players := [{ hand := [cardOf .calibrationUnit] }, {}]
    turnCounter := 20 }

/-- The turn `play_turn` takes from `c1EndState`. -/
def c1Out : Bool × GameState :=
  (playTurn id 10 ⟨agentRightDeck, agentRightDeck⟩ c1EndState).getD (true, c1EndState)

/-- A state one past the spec threshold (`turn_counter = 11 > max_turns = 10`)
on which the engine still continues. -/
def c1CexState : GameState :=
  { players := [{ hand := [cardOf .calibrationUnit] }, {}]
    turnCounter := 11 }

/-!
## Claim C2: the trap scan has no break
-/

/-- Player 1 holds two face-down tripwires; player 0 scores a center event. -/
def twoTrapState : GameState :=
  { players := [{}, { row := [tripwireFaceDown, tripwireFaceDown] }] }

/-- The `card_scored` event the scan is fed in the C2 scenario. -/
def twoTrapEvent : Event :=
  { eventType := .cardScored, playerIdx := 0, points := 2 }

/-- A face-up Calibration Unit in play with clean metadata. -/
def cipCal : CardInPlay := { card := cardOf .calibrationUnit }

/-- C7 scenario: player 0 about to trigger a Calibration Unit center with a
lone face-down tripwire in player 1's row. -/
def c7State : GameState :=
  { players := [{ row := [cipCal, cipCal, cipCal] },
      { row := [tripwireFaceDown, cipCal] }] }

/-!
## Claim C5: `effective_icons` and the `mimicked_icon` tag
-/

/-- `effective_icons` as the spec describes it: the `mimicked_icon` tag, when
set, overrides the printed icon.  (Spec-modelled definition, for comparison
with the source's `CardInPlay.effectiveIcons`.) -/
def effectiveIconsSpec (c : CardInPlay) : Finset Icon :=
  if ¬ c.faceUp then ∅
  else if c.metadata.allIcons then {.gear, .spark, .chip, .heart}
  else match c.metadata.mimickedIcon with
    | some i => {i}
    | none =>
      match c.card.icon with
      | none => ∅
      | some i => {i}

/-- A face-up Mimic that has "become" a gear (metadata written by
`effect_mimic`). -/
def mimickedMimic : CardInPlay :=
  { card := cardOf .mimic, metadata := { mimickedIcon := some .gear } }

/-!
## Claim C6: the recruiter shuffle and seeded determinism
-/

/-- A Recruiter in play. -/
def recruiterCip : CardInPlay := { card := cardOf .recruiter }

/-- A three-card deck about to be searched by a Recruiter effect. -/
def c6State : GameState :=
  { players := [{}, {}]
    deck := [cardOf .calibrationUnit, cardOf .mimic, cardOf .embargo] }

/-!
## Claim C8: chain reaction recursion depth
-/

/-- A clean face-up Chain Reaction in play. -/
def crCip : CardInPlay := { card := cardOf .chainReaction }

/-- Two structurally equal Chain Reactions side by side; the right one is the
center of a full row. -/
def c8DupState : GameState :=
  { players := [{ row := [crCip, crCip, cipCal] }, {}] }

/-- A Chain Reaction that has a recorded last score, hence structurally
distinct from a clean one. -/
def crMarked : CardInPlay :=
  { card := cardOf .chainReaction, metadata := { lastCenterScore := some 0 } }

/-- C8 scenario: a distinct left Chain Reaction next to the triggered one. -/
def c8State : GameState :=
  { players := [{ row := [crMarked, crCip, cipCal] }, {}] }

/-- C9 scenario: a three-card hand (as boomerang can produce), no deck, no
market. -/
def c9State : GameState :=
  { players := [{ hand := [cardOf .boomerang, cardOf .mimic, cardOf .embargo] },
      {}] }

/-- C10 scenario: playing the Mimic while a boomerang cooldown names it. -/
def c10State : GameState :=
  { players := [{ hand := [cardOf .mimic, cardOf .boomerang] }, {}]
    activeEffects := [⟨.boomerangCooldown, 0, some .mimic, none, some 5⟩] }

/-- The turn taken from `c1CexState` again, for the row-bound witness. -/
def c3Out : Bool × GameState :=
  (playTurn id 10 ⟨agentRightDeck, agentRightDeck⟩ c1CexState).getD
    (true, c1CexState)

/-!
## Claim C4: embargo timing
-/

/-- C4 agents: player 0 draws from the market, player 1 from the deck. -/
def c4Agents : Agents := ⟨agentRightMarket, agentRightDeck⟩

/-- C4 scenario: player 1 is about to complete a row whose center is an
Embargo, at `turn_counter = 3`. -/
def c4State : GameState :=
  { players := [{ hand := [cardOf .calibrationUnit] },
      { hand := [cardOf .calibrationUnit]
        row := [cipCal, { card := cardOf .embargo }] }]
    market := [cardOf .calibrationUnit, cardOf .calibrationUnit]
    turnCounter := 3
    currentPlayer := 1 }

/-- The state after player 1's embargo turn. -/
def c4Mid : GameState := ((playTurn id 10 c4Agents c4State).getD (true, c4State)).2

/-- The state after player 0's following turn. -/
def c4End : GameState := ((playTurn id 10 c4Agents c4Mid).getD (true, c4Mid)).2

/-- The step player 0 takes from `c4Mid`. -/
def c4Step2 : Bool × GameState := (playTurn id 10 c4Agents c4Mid).getD (true, c4Mid)

theorem pres_refl (s : GameState) : Pres s s :=
  ⟨rfl, rfl, rfl, fun _ => le_refl _⟩

theorem pres_trans {s t u : GameState} (h₁ : Pres s t) (h₂ : Pres t u) : Pres s u :=
  ⟨h₂.1.trans h₁.1, h₂.2.1.trans h₁.2.1, h₂.2.2.1.trans h₁.2.2.1,
    fun i => (h₂.2.2.2 i).trans (h₁.2.2.2 i)⟩

theorem player_setPlayer (s : GameState) (i k : Nat) (p : PlayerState) :
    (s.setPlayer i p).player k =
      if k = i ∧ i < s.players.length then p else s.player k := by
  simp only [GameState.setPlayer, GameState.player, List.getD, List.get?_eq_getElem?]
  by_cases hk : k = i
  · subst hk
    by_cases hi : k < s.players.length
    · simp [List.getElem?_set_eq_of_lt _ hi, hi]
    · have h1 : (s.players.set k p)[k]? = none := by
        rw [List.getElem?_eq_none_iff]
        simpa using Nat.not_lt.mp hi
      have h2 : s.players[k]? = none := by
        rw [List.getElem?_eq_none_iff]
        exact Nat.not_lt.mp hi
      simp [h1, h2, hi]
  · rw [List.getElem?_set_ne (fun h => hk h.symm)]
    simp [hk]

theorem pres_setPlayer {s : GameState} {i : Nat} {p : PlayerState}
    (h : p.row.length ≤ (s.player i).row.length) : Pres s (s.setPlayer i p) := by
  refine ⟨rfl, rfl, rfl, fun k => ?_⟩
  rw [player_setPlayer]
  by_cases hc : k = i ∧ i < s.players.length
  · simp only [if_pos hc]
    exact hc.1 ▸ h
  · simp [if_neg hc]

theorem pres_updateRowCard (s : GameState) (i j : Nat) (f : CardInPlay → CardInPlay) :
    Pres s (s.updateRowCard i j f) := by
  unfold GameState.updateRowCard
  dsimp only
  split
  · exact pres_refl s
  · exact pres_setPlayer (by simp)

theorem pres_recordCardScore (s : GameState) (n : CardName) (pts : Int) :
    Pres s (s.recordCardScore n pts) :=
  ⟨rfl, rfl, rfl, fun _ => le_refl _⟩

theorem pres_market (s : GameState) (m : List Card) :
    Pres s { s with market := m } :=
  ⟨rfl, rfl, rfl, fun _ => le_refl _⟩

theorem pres_deck (s : GameState) (d : List Card) :
    Pres s { s with deck := d } :=
  ⟨rfl, rfl, rfl, fun _ => le_refl _⟩

theorem pres_marketDeck (s : GameState) (m d : List Card) :
    Pres s { s with market := m, deck := d } :=
  ⟨rfl, rfl, rfl, fun _ => le_refl _⟩

theorem pres_activeEffects (s : GameState) (a : List ActiveEffect) :
    Pres s { s with activeEffects := a } :=
  ⟨rfl, rfl, rfl, fun _ => le_refl _⟩

theorem pres_turnEvents (s : GameState) (e : List Event) :
    Pres s { s with turnEvents := e } :=
  ⟨rfl, rfl, rfl, fun _ => le_refl _⟩

theorem pres_pendingChecks (s : GameState) (ph : List (Nat × CardName)) :
    Pres s { s with pendingHandLimitChecks := ph } :=
  ⟨rfl, rfl, rfl, fun _ => le_refl _⟩

theorem pres_enforceHandLimitFuel (ag : AgentModel) (p : Nat) :
    ∀ (fuel : Nat) (s s' : GameState),
      enforceHandLimitFuel ag p fuel s = some s' → Pres s s' := by
  intro fuel
  induction fuel with
  | zero =>
    intro s s' h
    unfold enforceHandLimitFuel at h
    split at h
    · cases h
    · cases h
      exact pres_refl _
  | succ n ih =>
    intro s s' h
    unfold enforceHandLimitFuel at h
    dsimp only at h
    split at h
    · split at h
      · split at h
        · refine pres_trans (pres_setPlayer ?_) (ih _ _ h)
          exact le_refl _
        · cases h
      · cases h
    · cases h
      exact pres_refl _

theorem pres_enforceHandLimit (ag : AgentModel) (s s' : GameState) (p : Nat)
    (h : enforceHandLimit ag s p = some s') : Pres s s' :=
  pres_enforceHandLimitFuel ag p _ s s' h

theorem pres_runTrapEffect (c : CardName) (ev : Event) (s : GameState)
    (ownerIdx trapIdx : Nat) (pts : Int) (s' : GameState)
    (h : runTrapEffect c ev s ownerIdx trapIdx = some (pts, s')) : Pres s s' := by
  cases c <;> simp only [runTrapEffect] at h <;>
    (cases h; try exact pres_updateRowCard _ _ _ _)

theorem pres_runEffect (gshuffle : List Card → List Card) (ag : AgentModel) :
    ∀ (fuel : Nat) (s : GameState) (p : Nat) (loc : EffLoc) (cip : CardInPlay)
      (pts : Int) (s' : GameState) (cip' : CardInPlay),
      runEffect gshuffle ag fuel s p loc cip = some (pts, s', cip') → Pres s s' := by
  intro fuel
  induction fuel with
  | zero => intro s p loc cip pts s' cip' h; cases h
  | succ n ih =>
    intro s p loc cip pts s' cip' h
    unfold runEffect at h
    cases hname : cip.card.name <;> rw [hname] at h <;> dsimp only at h
    case calibrationUnit =>
      cases h
      exact pres_refl _
    case farewellUnit =>
      cases h
      exact pres_refl _
    case embargo =>
      cases h
      exact pres_activeEffects _ _
    case mimic =>
      split at h
      · cases h
      · split at h
        · split at h
          · cases h
          · split at h
            · cases h
              cases loc with
              | inRow idx => exact pres_updateRowCard _ _ _ _
              | offRow => exact pres_refl _
            · cases h
              exact pres_refl _
        · cases h
          exact pres_refl _
    case chainReaction =>
      split at h
      · cases h
      · split at h
        · split at h
          · cases h
          · split at h
            · split at h
              · cases h
              · rename_i heq
                cases h
                exact pres_trans (ih _ _ _ _ _ _ _ heq) (pres_updateRowCard _ _ _ _)
            · cases h
              exact pres_refl _
        · cases h
          exact pres_refl _
    case boomerang =>
      cases h
      refine pres_trans (pres_setPlayer ?_) (pres_activeEffects _ _)
      exact le_refl _
    case recruiter =>
      split at h
      · cases h
        exact pres_refl _
      · split at h
        · split at h
          · split at h
            · cases h
            · split at h
              · cases h
              · rename_i heq
                cases h
                refine pres_trans ?_ (pres_enforceHandLimit _ _ _ _ heq)
                refine pres_trans (pres_deck _ _) (pres_setPlayer ?_)
                exact le_refl _
          · cases h
        · cases h
    case snare => cases h
    case tripwire => cases h
    case falseFlag => cases h

theorem pres_trapCancelStep (ev : Event) (opp i : Nat) (s : GameState) :
    Pres s (trapCancelStep ev opp i s) := by
  unfold trapCancelStep
  dsimp only
  split
  · exact pres_refl _
  · split
    · refine pres_trans (pres_updateRowCard _ _ _ _) (pres_setPlayer ?_)
      exact le_refl _
    · exact pres_refl _

theorem pres_trapAmbushStep (ag : Agents) (ev : Event) (opp i : Nat) (s s' : GameState)
    (h : trapAmbushStep ag ev opp i s = some s') : Pres s s' := by
  unfold trapAmbushStep at h
  dsimp only at h
  split at h
  · cases h
    exact pres_refl _
  · split at h
    · cases h
      exact pres_refl _
    · split at h
      · cases h
        exact pres_updateRowCard _ _ _ _
      · split at h
        · cases h
          exact pres_updateRowCard _ _ _ _
        · refine pres_trans ?_ (pres_enforceHandLimit _ _ _ _ h)
          exact pres_trans (pres_updateRowCard _ _ _ _)
            (pres_trans (pres_setPlayer (List.length_eraseIdx_le _ _))
              (pres_setPlayer (le_refl _)))

theorem pres_trapNullifyStep (ev : Event) (opp i : Nat) (s : GameState) :
    Pres s (trapNullifyStep ev opp i s) := by
  unfold trapNullifyStep
  dsimp only
  split
  · exact pres_refl _
  · split
    · exact pres_refl _
    · split
      · exact pres_updateRowCard _ _ _ _
      · split
        · exact pres_updateRowCard _ _ _ _
        · exact pres_trans (pres_updateRowCard _ _ _ _)
            (pres_trans (pres_setPlayer (List.length_eraseIdx_le _ _)) (pres_market _ _))

theorem pres_checkTrapsSlot (ag : Agents) (ev : Event) (opp : Nat) (s s' : GameState) (i : Nat)
    (h : checkTrapsSlot ag ev opp s i = some s') : Pres s s' := by
  unfold checkTrapsSlot at h
  dsimp only at h
  split at h
  · cases h
    exact pres_refl _
  · split at h
    · cases h
      exact pres_refl _
    · split at h
      · cases h
        exact pres_refl _
      · split at h
        · cases h
          exact pres_refl _
        · split at h
          · cases h
          · rename_i heff
            split at h
            · cases h
            · rename_i hamb
              cases h
              refine pres_trans ?_ (pres_trapNullifyStep ev opp i _)
              refine pres_trans ?_ (pres_trapAmbushStep _ _ _ _ _ _ hamb)
              refine pres_trans ?_ (pres_trapCancelStep ev opp i _)
              refine pres_trans ?_ (pres_recordCardScore _ _ _)
              refine pres_trans ?_ (pres_setPlayer (le_refl _))
              exact pres_trans (pres_updateRowCard _ _ _ _)
                (pres_runTrapEffect _ _ _ _ _ _ _ heff)

theorem pres_checkTrapsAux (ag : Agents) (ev : Event) (opp : Nat) :
    ∀ (l : List Nat) (s s' : GameState),
      checkTrapsAux ag ev opp l s = some s' → Pres s s' := by
  intro l
  induction l with
  | nil =>
    intro s s' h
    cases h
    exact pres_refl _
  | cons i rest ih =>
    intro s s' h
    unfold checkTrapsAux at h
    split at h
    · cases h
    · rename_i t hslot
      exact pres_trans (pres_checkTrapsSlot _ _ _ _ _ _ hslot) (ih _ _ h)

theorem pres_checkTraps (ag : Agents) (ev : Event) (s s' : GameState)
    (h : checkTraps ag ev s = some s') : Pres s s' :=
  pres_checkTrapsAux ag ev _ _ s s' h

theorem pres_pendingLimitLoop (ag : Agents) (p : Nat) (protectedName : CardName) :
    ∀ (fuel : Nat) (s s' : GameState),
      pendingLimitLoop ag p protectedName fuel s = some s' → Pres s s' := by
  intro fuel
  induction fuel with
  | zero =>
    intro s s' h
    unfold pendingLimitLoop at h
    split at h
    · cases h
    · cases h
      exact pres_refl _
  | succ n ih =>
    intro s s' h
    unfold pendingLimitLoop at h
    dsimp only at h
    split at h
    · split at h
      · split at h
        · refine pres_trans (pres_setPlayer ?_) (ih _ _ h)
          exact le_refl _
        · cases h
      · cases h
    · cases h
      exact pres_refl _

theorem pres_enforcePendingHandLimitsAux (ag : Agents) :
    ∀ (l : List (Nat × CardName)) (s s' : GameState),
      enforcePendingHandLimitsAux ag l s = some s' → Pres s s' := by
  intro l
  induction l with
  | nil =>
    intro s s' h
    cases h
    exact pres_refl _
  | cons e rest ih =>
    obtain ⟨p, prot⟩ := e
    intro s s' h
    unfold enforcePendingHandLimitsAux at h
    split at h
    · cases h
    · rename_i t hloop
      refine pres_trans (pres_pendingLimitLoop _ _ _ _ _ _ hloop) ?_
      exact pres_trans (pres_pendingChecks _ _) (ih _ _ h)

theorem pres_enforcePendingHandLimits (ag : Agents) (s s' : GameState)
    (h : enforcePendingHandLimits ag s = some s') : Pres s s' :=
  pres_enforcePendingHandLimitsAux ag _ s s' h

theorem pres_checkCenterTrigger (gshuffle : List Card → List Card) (ag : Agents)
    (p : Nat) (s s' : GameState)
    (h : checkCenterTrigger gshuffle ag p s = some s') : Pres s s' := by
  unfold checkCenterTrigger at h
  dsimp only at h
  split at h
  · cases h
    exact pres_refl _
  · split at h
    · cases h
      exact pres_refl _
    · split at h
      · cases h
        exact pres_refl _
      · split at h
        · cases h
        · rename_i heff
          split at h
          · cases h
          · rename_i s5 hlim
            -- s5 came either from the scored-event trap scan or directly
            split at hlim
            · rename_i hpts
              cases htr : checkTraps ag _ _ with
              | none => rw [htr] at hlim; cases hlim
              | some t =>
                rw [htr] at hlim
                cases hlim
                refine pres_trans ?_ (pres_enforcePendingHandLimits _ _ _ h)
                refine pres_trans ?_ (pres_checkTraps _ _ _ _ htr)
                refine pres_trans ?_ (pres_turnEvents _ _)
                refine pres_trans ?_ (pres_recordCardScore _ _ _)
                refine pres_trans ?_ (pres_setPlayer (le_refl _))
                refine pres_trans ?_ (pres_updateRowCard _ _ _ _)
                exact pres_runEffect _ _ _ _ _ _ _ _ _ _ heff
            · cases hlim
              refine pres_trans ?_ (pres_enforcePendingHandLimits _ _ _ h)
              refine pres_trans ?_ (pres_recordCardScore _ _ _)
              refine pres_trans ?_ (pres_setPlayer (le_refl _))
              refine pres_trans ?_ (pres_updateRowCard _ _ _ _)
              exact pres_runEffect _ _ _ _ _ _ _ _ _ _ heff

theorem pres_pushedExitStep (gshuffle : List Card → List Card) (ag : Agents)
    (pushed : CardInPlay) (playerIdx : Nat) (s : GameState) (pF : CardInPlay)
    (sA : GameState) (h : pushedExitStep gshuffle ag pushed playerIdx s = some (pF, sA)) :
    Pres s sA := by
  unfold pushedExitStep at h
  dsimp only at h
  split at h
  · split at h
    · cases h
    · rename_i heff
      split at h
      · split at h
        · cases h
          split
          · refine pres_trans ?_ (pres_setPlayer (List.length_eraseIdx_le _ _))
            refine pres_trans ?_ (pres_recordCardScore _ _ _)
            refine pres_trans ?_ (pres_setPlayer (le_refl _))
            exact pres_runEffect _ _ _ _ _ _ _ _ _ _ heff
          · refine pres_trans ?_
              (pres_setPlayer (by rw [List.length_dropLast]; exact Nat.sub_le _ _))
            refine pres_trans ?_ (pres_recordCardScore _ _ _)
            refine pres_trans ?_ (pres_setPlayer (le_refl _))
            exact pres_runEffect _ _ _ _ _ _ _ _ _ _ heff
        · cases h
          refine pres_trans ?_ (pres_recordCardScore _ _ _)
          refine pres_trans ?_ (pres_setPlayer (le_refl _))
          exact pres_runEffect _ _ _ _ _ _ _ _ _ _ heff
      · cases h
        refine pres_trans ?_ (pres_recordCardScore _ _ _)
        refine pres_trans ?_ (pres_setPlayer (le_refl _))
        exact pres_runEffect _ _ _ _ _ _ _ _ _ _ heff
  · cases h
    exact pres_refl _

theorem pres_pushedRouteStep (ag : Agents) (pF : CardInPlay) (playerIdx : Nat)
    (sA s' : GameState) (h : pushedRouteStep ag pF playerIdx sA = some s') :
    Pres sA s' := by
  unfold pushedRouteStep at h
  dsimp only at h
  have hB : ∀ sB : GameState, Pres sA sB →
      ((if sB.market.length > 3 then
          match (ag.get playerIdx).chooseEffectOption sB playerIdx
            ⟨"trash_market_card", (List.range sB.market.length).map .idx,
              "Choose which market card to trash"⟩ with
          | .idx i =>
            if i < sB.market.length then some { sB with market := sB.market.eraseIdx i }
            else none
          | _ => none
        else some sB) = some s') → Pres sA s' := by
    intro sB hpres hif
    split at hif
    · split at hif
      · split at hif
        · cases hif
          exact pres_trans hpres (pres_market _ _)
        · cases hif
      · cases hif
    · cases hif
      exact hpres
  split at h
  · exact hB _ (pres_deck _ _) h
  · split at h
    · exact hB _ (pres_market _ _) h
    · exact hB _ (pres_refl _) h

theorem pres_handlePushedCard (gshuffle : List Card → List Card) (ag : Agents)
    (pushed : CardInPlay) (playerIdx : Nat) (s s' : GameState)
    (h : handlePushedCard gshuffle ag pushed playerIdx s = some s') : Pres s s' := by
  unfold handlePushedCard at h
  split at h
  · cases h
  · rename_i pr hexit
    exact pres_trans (pres_pushedExitStep _ _ _ _ _ _ _ hexit)
      (pres_pushedRouteStep _ _ _ _ _ h)

theorem popEdge_length (edge : AgentChoice) (oppRow : List CardInPlay)
    (x : CardInPlay) (rest : List CardInPlay)
    (h : popEdge edge oppRow = some (x, rest)) : rest.length ≤ oppRow.length := by
  unfold popEdge at h
  split at h
  · split at h
    · cases h
      exact Nat.le_succ _
    · cases h
  · split at h
    · cases h
      rw [List.length_dropLast]
      exact Nat.sub_le _ _
    · cases h

theorem pres_pendingTugStep (gshuffle : List Card → List Card) (ag : Agents)
    (playerIdx i : Nat) (s s' : GameState)
    (h : pendingTugStep gshuffle ag playerIdx i s = some s') : Pres s s' := by
  unfold pendingTugStep at h
  dsimp only at h
  split at h
  · cases h
    exact pres_refl _
  · split at h
    · split at h
      · cases h
      · rename_i hpop
        split at h
        · cases h
        · rename_i hpush
          cases h
          refine pres_trans ?_ (pres_updateRowCard _ _ _ _)
          refine pres_trans ?_ (pres_handlePushedCard _ _ _ _ _ _ hpush)
          exact pres_setPlayer (popEdge_length _ _ _ _ hpop)
    · cases h
      exact pres_refl _

theorem pres_pendingSpiteStep (ag : Agents) (playerIdx i : Nat) (s s' : GameState)
    (h : pendingSpiteStep ag playerIdx i s = some s') : Pres s s' := by
  unfold pendingSpiteStep at h
  dsimp only at h
  split at h
  · cases h
    exact pres_refl _
  · split at h
    · split at h
      · cases h
      · rename_i hpop
        cases h
        refine pres_trans ?_ (pres_updateRowCard _ _ _ _)
        refine pres_trans ?_ (pres_market _ _)
        exact pres_setPlayer (popEdge_length _ _ _ _ hpop)
    · cases h
      exact pres_refl _

theorem pres_pendingEffectsSlot (gshuffle : List Card → List Card) (ag : Agents)
    (playerIdx : Nat) (s s' : GameState) (i : Nat)
    (h : pendingEffectsSlot gshuffle ag playerIdx s i = some s') : Pres s s' := by
  unfold pendingEffectsSlot at h
  split at h
  · cases h
  · rename_i sT htug
    exact pres_trans (pres_pendingTugStep _ _ _ _ _ _ htug)
      (pres_pendingSpiteStep _ _ _ _ _ h)

theorem pres_handlePendingEffectsAux (gshuffle : List Card → List Card) (ag : Agents)
    (playerIdx : Nat) :
    ∀ (l : List Nat) (s s' : GameState),
      handlePendingEffectsAux gshuffle ag playerIdx l s = some s' → Pres s s' := by
  intro l
  induction l with
  | nil =>
    intro s s' h
    cases h
    exact pres_refl _
  | cons i rest ih =>
    intro s s' h
    unfold handlePendingEffectsAux at h
    split at h
    · cases h
    · rename_i t hslot
      exact pres_trans (pres_pendingEffectsSlot _ _ _ _ _ _ hslot) (ih _ _ h)

theorem pres_handlePendingEffects (gshuffle : List Card → List Card) (ag : Agents)
    (playerIdx : Nat) (s s' : GameState)
    (h : handlePendingEffects gshuffle ag playerIdx s = some s') : Pres s s' :=
  pres_handlePendingEffectsAux gshuffle ag playerIdx _ s s' h

theorem pres_refillMarketFuel : ∀ (fuel : Nat) (s : GameState),
    Pres s (refillMarketFuel fuel s) := by
  intro fuel
  induction fuel with
  | zero => intro s; exact pres_refl _
  | succ n ih =>
    intro s
    unfold refillMarketFuel
    split
    · split
      · exact pres_trans (pres_marketDeck _ _ _) (ih _)
      · exact pres_refl _
    · exact pres_refl _

theorem pres_refillMarket (s : GameState) : Pres s (refillMarket s) :=
  pres_refillMarketFuel _ s

theorem pres_cleanupExpiredEffects (s : GameState) : Pres s (cleanupExpiredEffects s) :=
  pres_activeEffects _ _

theorem pres_drawStep (ag : Agents) (p : Nat) (dc : DrawChoice) (s s' : GameState)
    (h : drawStep ag p dc s = some s') : Pres s s' := by
  unfold drawStep at h
  dsimp only at h
  split at h
  · split at h
    · cases h
      exact pres_trans (pres_deck _ _) (pres_setPlayer (le_refl _))
    · cases h
      exact pres_refl _
  · split at h
    · cases h
      exact pres_refl _
    · split at h
      · cases h
      · split at h
        · cases h
        · split at h
          · cases h
          · split at h
            · cases h
              refine pres_trans ?_ (pres_updateRowCard _ _ _ _)
              exact pres_trans (pres_market _ _) (pres_setPlayer (le_refl _))
            · refine pres_trans ?_ (pres_checkTraps _ _ _ _ h)
              refine pres_trans ?_ (pres_turnEvents _ _)
              exact pres_trans (pres_market _ _) (pres_setPlayer (le_refl _))

theorem pres_handleDraw (ag : Agents) (p : Nat) (s s' : GameState)
    (h : handleDraw ag p s = some s') : Pres s s' := by
  unfold handleDraw at h
  dsimp only at h
  split at h
  · cases h
    exact pres_refl _
  · split at h
    · cases h
    · rename_i sD hdraw
      exact pres_trans (pres_drawStep _ _ _ _ _ hdraw)
        (pres_enforceHandLimitFuel _ _ _ _ _ h)

theorem presPlay_of_pres {s s' : GameState} (h : Pres s s') : PresPlay s s' :=
  ⟨h.1, h.2.1, h.2.2.1, fun i => (h.2.2.2 i).trans (le_max_left _ _)⟩

theorem presPlay_trans_pres {s t u : GameState} (h₁ : PresPlay s t) (h₂ : Pres t u) :
    PresPlay s u :=
  ⟨h₂.1.trans h₁.1, h₂.2.1.trans h₁.2.1, h₂.2.2.1.trans h₁.2.2.1,
    fun i => (h₂.2.2.2 i).trans (h₁.2.2.2 i)⟩

theorem pres_trans_presPlay {s t u : GameState} (h₁ : Pres s t) (h₂ : PresPlay t u) :
    PresPlay s u :=
  ⟨h₂.1.trans h₁.1, h₂.2.1.trans h₁.2.1, h₂.2.2.1.trans h₁.2.2.1,
    fun i => (h₂.2.2.2 i).trans (max_le_max_right 3 (h₁.2.2.2 i))⟩

theorem presPlay_setPlayer {s : GameState} {i : Nat} {p : PlayerState}
    (h : p.row.length ≤ max (s.player i).row.length 3) :
    PresPlay s (s.setPlayer i p) := by
  refine ⟨rfl, rfl, rfl, fun k => ?_⟩
  rw [player_setPlayer]
  by_cases hc : k = i ∧ i < s.players.length
  · simp only [if_pos hc]
    exact hc.1 ▸ h
  · simp only [if_neg hc]
    exact le_max_left _ _

theorem insertEdge_length (side : Side) (cip : CardInPlay) (row : List CardInPlay) :
    (insertEdge side cip row).1.length ≤ max row.length 3 := by
  unfold insertEdge
  cases side
  · dsimp only
    split
    · split
      · rename_i hlen _ _ _
        dsimp only
        rw [List.length_dropLast, List.length_cons]
        simp only [Nat.add_sub_cancel]
        exact le_max_left _ _
      · rename_i hlast
        rw [List.getLast?_eq_none_iff] at hlast
        cases hlast
    · rename_i hlen
      dsimp only
      rw [List.length_cons]
      rw [List.length_cons, Nat.not_lt] at hlen
      exact le_max_of_le_right hlen
  · dsimp only
    split
    · split
      · rename_i hlen heqrow
        dsimp only
        have hl := congrArg List.length heqrow
        simp only [List.length_append, List.length_cons, List.length_nil] at hl
        omega
      · rename_i hnil
        exact absurd hnil (by simp)
    · rename_i hlen
      dsimp only
      rw [Nat.not_lt] at hlen
      exact le_max_of_le_right hlen

theorem presPlay_playCard (gshuffle : List Card → List Card) (ag : Agents)
    (action : PlayAction) (s : GameState) (po : Option CardInPlay) (s' : GameState)
    (h : playCard gshuffle ag action s = some (po, s')) : PresPlay s s' := by
  unfold playCard at h
  dsimp only at h
  split at h
  · cases h
    exact presPlay_of_pres (pres_refl _)
  · split at h
    · cases h
      exact presPlay_of_pres (pres_refl _)
    · split at h
      · cases h
        exact presPlay_of_pres
          (pres_trans (pres_setPlayer (by exact le_refl _))
            (pres_setPlayer (by exact le_refl _)))
      · split at h
        · cases h
          exact presPlay_of_pres
            (pres_trans (pres_setPlayer (by exact le_refl _))
              (pres_setPlayer (by exact le_refl _)))
        · split at h
          · cases h
          · rename_i s2 htraps
            split at h
            · cases h
              refine presPlay_of_pres ?_
              refine pres_trans ?_ (pres_updateRowCard _ _ _ _)
              refine pres_trans ?_ (pres_market _ _)
              refine pres_trans ?_ (pres_checkTraps _ _ _ _ htraps)
              exact pres_trans (pres_setPlayer (by exact le_refl _)) (pres_turnEvents _ _)
            · split at h
              · cases h
              · rename_i s6 hctr
                cases h
                refine presPlay_trans_pres ?_ (pres_checkCenterTrigger _ _ _ _ _ hctr)
                refine @pres_trans_presPlay s s2 _ ?_ ?_
                · refine pres_trans ?_ (pres_checkTraps _ _ _ _ htraps)
                  exact pres_trans (pres_setPlayer (by exact le_refl _)) (pres_turnEvents _ _)
                · exact presPlay_setPlayer (insertEdge_length _ _ _)

theorem pres_foldl {α : Type} (f : GameState → α → GameState)
    (hf : ∀ acc x, Pres acc (f acc x)) :
    ∀ (l : List α) (s : GameState), Pres s (l.foldl f s) := by
  intro l
  induction l with
  | nil => intro s; exact pres_refl _
  | cons x xs ih =>
    intro s
    rw [List.foldl_cons]
    exact pres_trans (hf s x) (ih _)

theorem pres_endGame_core (t : GameState) :
    Pres t ((List.range t.players.length).foldl (fun acc i =>
      ((acc.player i).row).foldl (fun acc2 c =>
        match c.metadata.patienceTurn with
        | some pt =>
          let te := acc2.turnCounter - pt
          (acc2.setPlayer i
            { acc2.player i with score := (acc2.player i).score + te }).recordCardScore
              c.card.name te
        | none => acc2) acc) t) := by
  refine pres_foldl _ ?_ _ _
  intro acc i
  refine pres_foldl _ ?_ _ _
  intro acc2 c
  split
  · exact pres_trans (pres_setPlayer (by exact le_refl _)) (pres_recordCardScore _ _ _)
  · exact pres_refl _

theorem endGame_facts (t : GameState) :
    (endGame t).gameOver = true ∧ (endGame t).turnCounter = t.turnCounter ∧
      (endGame t).currentPlayer = t.currentPlayer ∧
      ∀ i, ((endGame t).player i).row.length ≤ (t.player i).row.length := by
  have hc := pres_endGame_core t
  exact ⟨rfl, hc.1, hc.2.2.1, hc.2.2.2⟩

theorem endCheckStep_shape (mt : Int) (s4 : GameState) :
    ∃ s5 : GameState, Pres s4 s5 ∧
      ((s5.turnCounter ≥ mt * 2 ∧ endCheckStep mt s4 = (false, endGame s5)) ∨
       (¬ s5.turnCounter ≥ mt * 2 ∧ endCheckStep mt s4 = (true,
         { s5 with
           currentPlayer := 1 - s5.currentPlayer
           turnCounter := if 1 - s5.currentPlayer = 0 then s5.turnCounter + 1
             else s5.turnCounter }))) := by
  refine ⟨cleanupExpiredEffects (refillMarket s4),
    pres_trans (pres_refillMarket _) (pres_cleanupExpiredEffects _), ?_⟩
  unfold endCheckStep
  dsimp only
  split
  · rename_i hge
    exact Or.inl ⟨hge, rfl⟩
  · rename_i hge
    exact Or.inr ⟨hge, rfl⟩

theorem playPhase_presPlay (gshuffle : List Card → List Card) (ag : Agents)
    (p : Nat) (s s2 : GameState) (h : playPhase gshuffle ag p s = some s2) :
    PresPlay s s2 := by
  unfold playPhase at h
  dsimp only at h
  split at h
  · split at h
    · cases h
    · rename_i po s1 hplay
      split at h
      · exact presPlay_trans_pres (presPlay_playCard _ _ _ _ _ _ hplay)
          (pres_handlePushedCard _ _ _ _ _ _ h)
      · cases h
        exact presPlay_playCard _ _ _ _ _ _ hplay
  · cases h
    exact presPlay_of_pres (pres_refl _)

theorem playTurn_shape (gshuffle : List Card → List Card) (mt : Int) (ag : Agents)
    (s : GameState) (b : Bool) (s' : GameState)
    (hgo : s.gameOver = false) (h : playTurn gshuffle mt ag s = some (b, s')) :
    ∃ s5 : GameState, PresPlay s s5 ∧
      ((s.turnCounter ≥ mt * 2 ∧ b = false ∧ s' = endGame s5) ∨
       (¬ s.turnCounter ≥ mt * 2 ∧ b = true ∧
         s' = { s5 with
                currentPlayer := 1 - s5.currentPlayer
                turnCounter := if 1 - s5.currentPlayer = 0 then s5.turnCounter + 1
                  else s5.turnCounter })) := by
  unfold playTurn at h
  rw [if_neg (by simp [hgo])] at h
  dsimp only at h
  split at h
  · cases h
  · rename_i s2 hplay
    split at h
    · cases h
    · rename_i s3 hpend
      split at h
      · cases h
      · rename_i s4 hdraw
        obtain ⟨s5, hpres5, hcases⟩ := endCheckStep_shape mt s4
        have hp : PresPlay s s5 := by
          refine presPlay_trans_pres ?_ hpres5
          refine presPlay_trans_pres ?_ (pres_handleDraw _ _ _ _ hdraw)
          refine presPlay_trans_pres ?_ (pres_handlePendingEffects _ _ _ _ _ hpend)
          exact pres_trans_presPlay (pres_turnEvents _ _) (playPhase_presPlay _ _ _ _ _ hplay)
        have htc : s5.turnCounter = s.turnCounter := hp.1
        rcases hcases with ⟨hge, heq⟩ | ⟨hge, heq⟩
        · rw [heq] at h
          cases h
          refine ⟨s5, hp, Or.inl ⟨?_, rfl, rfl⟩⟩
          rw [← htc]
          exact hge
        · rw [heq] at h
          cases h
          refine ⟨s5, hp, Or.inr ⟨?_, rfl, rfl⟩⟩
          rw [← htc]
          exact hge

theorem get?_set_self {α : Type} (l : List α) (i : Nat) (a : α) (h : i < l.length) :
    (l.set i a).get? i = some a := by
  rw [List.get?_eq_getElem?, List.getElem?_set_eq_of_lt _ h]

theorem get?_set_other {α : Type} (l : List α) (i j : Nat) (a : α) (h : j ≠ i) :
    (l.set i a).get? j = l.get? j := by
  rw [List.get?_eq_getElem?, List.getElem?_set_ne (fun hh => h hh.symm),
    ← List.get?_eq_getElem?]

theorem setPlayer_setPlayer (s : GameState) (i : Nat) (p q : PlayerState) :
    (s.setPlayer i p).setPlayer i q = s.setPlayer i q := by
  simp [GameState.setPlayer, List.set_set]

theorem updateRowCard_eq (s : GameState) (i j : Nat) (f : CardInPlay → CardInPlay)
    (c : CardInPlay) (h : (s.player i).row.get? j = some c) :
    s.updateRowCard i j f =
      s.setPlayer i { s.player i with row := (s.player i).row.set j (f c) } := by
  unfold GameState.updateRowCard
  dsimp only
  rw [h]

theorem players_length_setPlayer (s : GameState) (i : Nat) (p : PlayerState) :
    (s.setPlayer i p).players.length = s.players.length := by
  simp [GameState.setPlayer]

theorem checkTrapsSlot_skip_faceUp (ag : Agents) (ev : Event) (opp i : Nat)
    (s : GameState) (c : CardInPlay)
    (hget : (s.player opp).row.get? i = some c) (hc : c.faceUp = true) :
    checkTrapsSlot ag ev opp s i = some s := by
  unfold checkTrapsSlot
  rw [hget]
  dsimp only
  rw [if_pos hc]

theorem player_recordCardScore (s : GameState) (n : CardName) (pts : Int) (k : Nat) :
    (s.recordCardScore n pts).player k = s.player k := rfl

theorem setPlayer_recordCardScore (s : GameState) (n : CardName) (pts : Int)
    (k : Nat) (q : PlayerState) :
    (s.recordCardScore n pts).setPlayer k q = (s.setPlayer k q).recordCardScore n pts := rfl

theorem updateRowCard_recordCardScore (s : GameState) (n : CardName) (pts : Int)
    (i j : Nat) (f : CardInPlay → CardInPlay) :
    (s.recordCardScore n pts).updateRowCard i j f =
      (s.updateRowCard i j f).recordCardScore n pts := by
  unfold GameState.updateRowCard
  dsimp only
  cases h : (s.player i).row.get? j with
  | none =>
    rw [show ((s.recordCardScore n pts).player i).row.get? j = (s.player i).row.get? j from rfl, h]
  | some c =>
    rw [show ((s.recordCardScore n pts).player i).row.get? j = (s.player i).row.get? j from rfl, h]
    rfl

theorem updateRowCard_after_set (s : GameState) (opp i : Nat) (c : CardInPlay)
    (f : CardInPlay → CardInPlay) (hopp : opp < s.players.length)
    (hi : i < (s.player opp).row.length) :
    (s.setPlayer opp
        { s.player opp with row := (s.player opp).row.set i c }).updateRowCard opp i f
      = s.setPlayer opp { s.player opp with row := (s.player opp).row.set i (f c) } := by
  have hp1 : (s.setPlayer opp
      { s.player opp with row := (s.player opp).row.set i c }).player opp
      = { s.player opp with row := (s.player opp).row.set i c } := by
    rw [player_setPlayer]
    exact if_pos ⟨rfl, hopp⟩
  have hg : ((s.setPlayer opp
      { s.player opp with row := (s.player opp).row.set i c }).player opp).row.get? i
      = some c := by
    rw [hp1]
    exact get?_set_self _ _ _ (by simpa using hi)
  rw [updateRowCard_eq _ opp i f c hg, hp1]
  dsimp only
  rw [List.set_set, setPlayer_setPlayer]

theorem runTrapEffect_tripwire_step (ev : Event) (opp i : Nat) (s : GameState)
    (hopp : opp < s.players.length) (hi : i < (s.player opp).row.length) :
    runTrapEffect .tripwire ev
      (s.setPlayer opp
        { s.player opp with row := (s.player opp).row.set i tripwireFaceUp }) opp i
    = some (1, s.setPlayer opp
        { s.player opp with
          row := (s.player opp).row.set i (tripwireCancelPending ev.points) }) := by
  unfold runTrapEffect
  dsimp only
  rw [updateRowCard_after_set s opp i tripwireFaceUp _ hopp hi]
  rfl

theorem trapAmbushStep_clean (ag : Agents) (ev : Event) (opp i : Nat) (s : GameState)
    (c : CardInPlay) (hread : (s.player opp).row.get? i = some c)
    (hc : c.metadata.ambushStealCard = none) :
    trapAmbushStep ag ev opp i s = some s := by
  unfold trapAmbushStep
  rw [hread]
  dsimp only
  rw [hc]

theorem trapNullifyStep_clean (ev : Event) (opp i : Nat) (s : GameState)
    (c : CardInPlay) (hread : (s.player opp).row.get? i = some c)
    (hc : c.metadata.nullifyCard = none) :
    trapNullifyStep ev opp i s = s := by
  unfold trapNullifyStep
  rw [hread]
  dsimp only
  rw [hc]

theorem player_setPlayer_ne (s : GameState) (i k : Nat) (p : PlayerState)
    (h : k ≠ i) : (s.setPlayer i p).player k = s.player k := by
  rw [player_setPlayer]
  exact if_neg (fun hh => h hh.1)

theorem player_setPlayer_self (s : GameState) (i : Nat) (p : PlayerState)
    (h : i < s.players.length) : (s.setPlayer i p).player i = p := by
  rw [player_setPlayer]
  exact if_pos ⟨rfl, h⟩

theorem updateRowCard_setPlayer_eq (s : GameState) (opp i : Nat) (p : PlayerState)
    (c : CardInPlay) (f : CardInPlay → CardInPlay) (hopp : opp < s.players.length)
    (hc : p.row.get? i = some c) :
    (s.setPlayer opp p).updateRowCard opp i f
      = s.setPlayer opp { p with row := p.row.set i (f c) } := by
  have hp : (s.setPlayer opp p).player opp = p := by
    rw [player_setPlayer]
    exact if_pos ⟨rfl, hopp⟩
  rw [updateRowCard_eq _ opp i f c (by rw [hp]; exact hc), hp, setPlayer_setPlayer]

theorem trapCancelStep_tripwire (ev : Event) (opp i : Nat) (s : GameState)
    (hopp : opp < s.players.length) (hi : i < (s.player opp).row.length)
    (hne : ev.playerIdx ≠ opp) (hpts : 0 < ev.points) :
    trapCancelStep ev opp i
      ((s.setPlayer opp
          { s.player opp with
            row := (s.player opp).row.set i (tripwireCancelPending ev.points)
            score := (s.player opp).score + 1 }).recordCardScore .tripwire 1)
    = ((s.setPlayer opp
          { s.player opp with
            row := (s.player opp).row.set i tripwireFaceUp
            score := (s.player opp).score + 1 }).setPlayer ev.playerIdx
          { s.player ev.playerIdx with
            score := (s.player ev.playerIdx).score - ev.points }).recordCardScore
        .tripwire 1 := by
  have hread : (((s.setPlayer opp
      { s.player opp with
        row := (s.player opp).row.set i (tripwireCancelPending ev.points)
        score := (s.player opp).score + 1 }).recordCardScore .tripwire 1).player opp).row.get? i
      = some (tripwireCancelPending ev.points) := by
    rw [player_recordCardScore, player_setPlayer]
    rw [if_pos ⟨rfl, hopp⟩]
    exact get?_set_self _ _ _ (by simpa using hi)
  unfold trapCancelStep
  rw [hread]
  dsimp only
  rw [if_pos (show (tripwireCancelPending ev.points).metadata.cancelScore.getD 0 ≠ 0 from
    ne_of_gt hpts)]
  rw [updateRowCard_recordCardScore]
  rw [updateRowCard_setPlayer_eq s opp i _ (tripwireCancelPending ev.points) _ hopp
    (get?_set_self _ _ _ (by simpa using hi))]
  rw [player_recordCardScore, player_setPlayer_ne _ _ _ _ hne]
  rw [setPlayer_recordCardScore]
  dsimp only
  rw [List.set_set]
  rfl

theorem checkTrapsSlot_tripwire_fires (ag : Agents) (ev : Event) (opp i : Nat)
    (s : GameState)
    (hget : (s.player opp).row.get? i = some tripwireFaceDown)
    (hev : ev.eventType = .cardScored) (hne : ev.playerIdx ≠ opp)
    (hpts : 0 < ev.points) (hopp : opp < s.players.length) :
    checkTrapsSlot ag ev opp s i = some
      (((s.setPlayer opp
          { s.player opp with
            row := (s.player opp).row.set i tripwireFaceUp
            score := (s.player opp).score + 1 }).setPlayer ev.playerIdx
          { s.player ev.playerIdx with
            score := (s.player ev.playerIdx).score - ev.points }).recordCardScore
        .tripwire 1) := by
  obtain ⟨hi, -⟩ := List.get?_eq_some.mp hget
  have htrig : (ev.eventType == EventType.cardScored && ev.playerIdx != opp &&
      decide (ev.points > 0)) = true := by
    simp [hev, hne, hpts]
  have hread4 : ((((s.setPlayer opp
      { s.player opp with
        row := (s.player opp).row.set i tripwireFaceUp
        score := (s.player opp).score + 1 }).setPlayer ev.playerIdx
      { s.player ev.playerIdx with
        score := (s.player ev.playerIdx).score - ev.points }).recordCardScore
      .tripwire 1).player opp).row.get? i = some tripwireFaceUp := by
    rw [player_recordCardScore, player_setPlayer_ne _ _ _ _ (fun hh => hne hh.symm)]
    rw [player_setPlayer, if_pos ⟨rfl, hopp⟩]
    exact get?_set_self _ _ _ (by simpa using hi)
  unfold checkTrapsSlot
  rw [hget]
  dsimp only
  rw [if_neg (by simp [tripwireFaceDown])]
  rw [show tripwireFaceDown.card.name = CardName.tripwire from rfl]
  dsimp only [triggerCheck]
  rw [htrig]
  rw [if_neg (by simp)]
  rw [updateRowCard_eq s opp i _ _ hget]
  rw [show ({ card := tripwireFaceDown.card, faceUp := true, metadata := tripwireFaceDown.metadata } : CardInPlay) = tripwireFaceUp from rfl]
  rw [runTrapEffect_tripwire_step ev opp i s hopp hi]
  dsimp only
  rw [player_setPlayer, if_pos ⟨rfl, hopp⟩]
  dsimp only
  rw [setPlayer_setPlayer]
  rw [trapCancelStep_tripwire ev opp i s hopp hi hne hpts]
  rw [trapAmbushStep_clean ag ev opp i _ tripwireFaceUp hread4 rfl]
  dsimp only
  rw [trapNullifyStep_clean ev opp i _ tripwireFaceUp hread4 rfl]

theorem checkTrapsAux_tripwires (ag : Agents) (ev : Event) (opp : Nat)
    (hev : ev.eventType = .cardScored) (hne : ev.playerIdx ≠ opp)
    (hpts : 0 < ev.points) :
    ∀ (idxs : List Nat) (s : GameState), idxs.Nodup →
      opp < s.players.length → ev.playerIdx < s.players.length →
      (∀ j ∈ idxs, ∀ c, (s.player opp).row.get? j = some c →
        c.faceUp = true ∨ c = tripwireFaceDown) →
      ∃ s', checkTrapsAux ag ev opp idxs s = some s' ∧
        s'.players.length = s.players.length ∧
        (∀ j ∈ idxs, (s'.player opp).row.get? j =
          ((s.player opp).row.get? j).map
            (fun c => if c.faceUp then c else tripwireFaceUp)) ∧
        (∀ j, j ∉ idxs → (s'.player opp).row.get? j = (s.player opp).row.get? j) ∧
        (s'.player opp).row.length = (s.player opp).row.length ∧
        (s'.player opp).score = (s.player opp).score +
          ((idxs.filter
            (fun j => ((s.player opp).row.get? j).any (fun c => ! c.faceUp))).length : Int) ∧
        (s'.player ev.playerIdx).score = (s.player ev.playerIdx).score -
          ((idxs.filter
            (fun j => ((s.player opp).row.get? j).any (fun c => ! c.faceUp))).length : Int)
            * ev.points ∧
        (∀ k, k ≠ opp → (s'.player k).row = (s.player k).row) ∧
        (∀ k, k ≠ opp → k ≠ ev.playerIdx → (s'.player k).score = (s.player k).score) ∧
        (∀ k, (s'.player k).hand = (s.player k).hand) ∧
        s'.market = s.market ∧ s'.deck = s.deck ∧
        s'.turnCounter = s.turnCounter ∧ s'.currentPlayer = s.currentPlayer ∧
        s'.gameOver = s.gameOver ∧ s'.activeEffects = s.activeEffects ∧
        s'.turnEvents = s.turnEvents ∧
        s'.pendingHandLimitChecks = s.pendingHandLimitChecks := by
  intro idxs
  induction idxs with
  | nil =>
    intro s hnd hopp hsc hcond
    refine ⟨s, rfl, rfl, by simp, fun j hj => rfl, rfl, by simp, by simp,
      fun k hk => rfl, fun k hk hk2 => rfl, fun k => rfl, rfl, rfl, rfl, rfl, rfl,
      rfl, rfl, rfl⟩
  | cons i rest ih =>
    intro s hnd hopp hsc hcond
    obtain ⟨hinotin, hndrest⟩ := List.nodup_cons.mp hnd
    have hauxEq : checkTrapsAux ag ev opp (i :: rest) s =
        (match checkTrapsSlot ag ev opp s i with
         | none => none
         | some t => checkTrapsAux ag ev opp rest t) := rfl
    have skipCase : checkTrapsSlot ag ev opp s i = some s →
        ((s.player opp).row.get? i).any (fun c => ! c.faceUp) = false →
        (∃ s', checkTrapsAux ag ev opp (i :: rest) s = some s' ∧
          s'.players.length = s.players.length ∧
          (∀ j ∈ i :: rest, (s'.player opp).row.get? j =
            ((s.player opp).row.get? j).map
              (fun c => if c.faceUp then c else tripwireFaceUp)) ∧
          (∀ j, j ∉ i :: rest → (s'.player opp).row.get? j = (s.player opp).row.get? j) ∧
          (s'.player opp).row.length = (s.player opp).row.length ∧
          (s'.player opp).score = (s.player opp).score +
            (((i :: rest).filter
              (fun j => ((s.player opp).row.get? j).any (fun c => ! c.faceUp))).length : Int) ∧
          (s'.player ev.playerIdx).score = (s.player ev.playerIdx).score -
            (((i :: rest).filter
              (fun j => ((s.player opp).row.get? j).any (fun c => ! c.faceUp))).length : Int)
              * ev.points ∧
          (∀ k, k ≠ opp → (s'.player k).row = (s.player k).row) ∧
          (∀ k, k ≠ opp → k ≠ ev.playerIdx → (s'.player k).score = (s.player k).score) ∧
          (∀ k, (s'.player k).hand = (s.player k).hand) ∧
          s'.market = s.market ∧ s'.deck = s.deck ∧
          s'.turnCounter = s.turnCounter ∧ s'.currentPlayer = s.currentPlayer ∧
          s'.gameOver = s.gameOver ∧ s'.activeEffects = s.activeEffects ∧
          s'.turnEvents = s.turnEvents ∧
          s'.pendingHandLimitChecks = s.pendingHandLimitChecks) := by
      intro hstep hpredi
      obtain ⟨s', h1, hplen, hmapIn, hmapOut, hrlen, hscO, hscS, hrows, hscoth,
        hhands, hmkt, hdk, htc, hcp, hgo, hae, hte, hphc⟩ :=
        ih s hndrest hopp hsc (fun j hj => hcond j (List.mem_cons_of_mem _ hj))
      have hfilter : ((i :: rest).filter
          (fun j => ((s.player opp).row.get? j).any (fun c => ! c.faceUp))).length
          = (rest.filter
            (fun j => ((s.player opp).row.get? j).any (fun c => ! c.faceUp))).length := by
        simp only [List.filter_cons, hpredi, Bool.false_eq_true, if_false]
      have hmapi : ((s.player opp).row.get? i).map
          (fun c => if c.faceUp then c else tripwireFaceUp) = (s.player opp).row.get? i := by
        cases h2 : (s.player opp).row.get? i with
        | none => rfl
        | some c =>
          rw [h2] at hpredi
          have hcf : c.faceUp = true := by
            by_contra hcf
            rw [Bool.not_eq_true] at hcf
            simp [hcf] at hpredi
          simp [hcf]
      refine ⟨s', ?_, hplen, ?_, ?_, hrlen, ?_, ?_, hrows, hscoth, hhands, hmkt,
        hdk, htc, hcp, hgo, hae, hte, hphc⟩
      · rw [hauxEq, hstep]
        exact h1
      · intro j hj
        rcases List.mem_cons.mp hj with hji | hjr
        · subst hji
          rw [hmapi]
          exact hmapOut j hinotin
        · exact hmapIn j hjr
      · intro j hj
        exact hmapOut j (fun hjr => hj (List.mem_cons_of_mem _ hjr))
      · rw [hscO, hfilter]
      · rw [hscS, hfilter]
    cases hslot : (s.player opp).row.get? i with
    | none =>
      refine skipCase ?_ ?_
      · unfold checkTrapsSlot
        rw [hslot]
      · rw [hslot]
        rfl
    | some c =>
      rcases hcond i (List.mem_cons_self i rest) c hslot with hcF | hcFD
      · refine skipCase (checkTrapsSlot_skip_faceUp ag ev opp i s c hslot hcF) ?_
        rw [hslot]
        simp [hcF]
      · subst hcFD
        obtain ⟨hi, -⟩ := List.get?_eq_some.mp hslot
        set S1 := ((s.setPlayer opp
            { s.player opp with
              row := (s.player opp).row.set i tripwireFaceUp
              score := (s.player opp).score + 1 }).setPlayer ev.playerIdx
            { s.player ev.playerIdx with
              score := (s.player ev.playerIdx).score - ev.points }).recordCardScore
          CardName.tripwire 1 with hS1
        have hstep := checkTrapsSlot_tripwire_fires ag ev opp i s hslot hev hne hpts hopp
        rw [← hS1] at hstep
        have hplen1 : S1.players.length = s.players.length := by
          rw [hS1]
          simp [GameState.recordCardScore, players_length_setPlayer]
        have hp4 : S1.player opp = { s.player opp with
            row := (s.player opp).row.set i tripwireFaceUp
            score := (s.player opp).score + 1 } := by
          rw [hS1, player_recordCardScore,
            player_setPlayer_ne _ _ _ _ (fun hh => hne hh.symm), player_setPlayer,
            if_pos ⟨rfl, hopp⟩]
        have hpq : S1.player ev.playerIdx = { s.player ev.playerIdx with
            score := (s.player ev.playerIdx).score - ev.points } := by
          rw [hS1, player_recordCardScore, player_setPlayer]
          refine if_pos ⟨rfl, ?_⟩
          rw [players_length_setPlayer]
          exact hsc
        have hpk : ∀ k, k ≠ opp → k ≠ ev.playerIdx → S1.player k = s.player k := by
          intro k hk1 hk2
          rw [hS1, player_recordCardScore, player_setPlayer_ne _ _ _ _ hk2,
            player_setPlayer_ne _ _ _ _ hk1]
        have hslots1 : ∀ j, j ≠ i → (S1.player opp).row.get? j = (s.player opp).row.get? j := by
          intro j hj
          rw [hp4]
          dsimp only
          exact get?_set_other _ _ _ _ hj
        have hcond1 : ∀ j ∈ rest, ∀ c, (S1.player opp).row.get? j = some c →
            c.faceUp = true ∨ c = tripwireFaceDown := by
          intro j hj c hc
          rw [hslots1 j (fun hji => hinotin (hji ▸ hj))] at hc
          exact hcond j (List.mem_cons_of_mem _ hj) c hc
        obtain ⟨s', h1, hplen, hmapIn, hmapOut, hrlen, hscO, hscS, hrows, hscoth,
          hhands, hmkt, hdk, htc, hcp, hgo, hae, hte, hphc⟩ :=
          ih S1 hndrest (by rw [hplen1]; exact hopp) (by rw [hplen1]; exact hsc) hcond1
        have hcount : (rest.filter
            (fun j => ((S1.player opp).row.get? j).any (fun c => ! c.faceUp))).length
            = (rest.filter
              (fun j => ((s.player opp).row.get? j).any (fun c => ! c.faceUp))).length := by
          rw [List.filter_congr
            (fun j hj => by rw [hslots1 j (fun hji => hinotin (hji ▸ hj))])]
        have hpredi : ((s.player opp).row.get? i).any (fun c => ! c.faceUp) = true := by
          rw [hslot]
          simp [tripwireFaceDown]
        have hfilter : ((i :: rest).filter
            (fun j => ((s.player opp).row.get? j).any (fun c => ! c.faceUp))).length
            = (rest.filter
              (fun j => ((s.player opp).row.get? j).any (fun c => ! c.faceUp))).length + 1 := by
          simp only [List.filter_cons, hpredi, if_true, List.length_cons]
        have hs1geti : (S1.player opp).row.get? i = some tripwireFaceUp := by
          rw [hp4]
          dsimp only
          exact get?_set_self _ _ _ (by simpa using hi)
        refine ⟨s', ?_, hplen.trans hplen1, ?_, ?_, ?_, ?_, ?_, ?_, ?_, ?_,
          hmkt.trans (by rw [hS1]; rfl), hdk.trans (by rw [hS1]; rfl),
          htc.trans (by rw [hS1]; rfl), hcp.trans (by rw [hS1]; rfl), hgo.trans (by rw [hS1]; rfl),
          hae.trans (by rw [hS1]; rfl), hte.trans (by rw [hS1]; rfl),
          hphc.trans (by rw [hS1]; rfl)⟩
        · rw [hauxEq, hstep]
          exact h1
        · intro j hj
          rcases List.mem_cons.mp hj with hji | hjr
          · subst hji
            rw [hmapOut j hinotin, hs1geti, hslot]
            simp [tripwireFaceDown]
          · rw [hmapIn j hjr, hslots1 j (fun hji => hinotin (hji ▸ hjr))]
        · intro j hj
          rw [hmapOut j (fun hjr => hj (List.mem_cons_of_mem _ hjr)),
            hslots1 j (fun hji => hj (hji ▸ List.mem_cons_self i rest))]
        · rw [hrlen, hp4]
          dsimp only
          exact List.length_set _ _ _
        · rw [hscO, hcount, hfilter, hp4]
          dsimp only
          push_cast
          ring
        · rw [hscS, hcount, hfilter, hpq]
          dsimp only
          push_cast
          ring
        · intro k hk
          rw [hrows k hk]
          by_cases hk2 : k = ev.playerIdx
          · subst hk2
            rw [hpq]
          · rw [hpk k hk hk2]
        · intro k hk hk2
          rw [hscoth k hk hk2, hpk k hk hk2]
        · intro k
          rw [hhands k]
          by_cases hk1 : k = opp
          · subst hk1
            rw [hp4]
          · by_cases hk2 : k = ev.playerIdx
            · subst hk2
              rw [hpq]
            · rw [hpk k hk1 hk2]

theorem count_get?_filter {α : Type} (p : α → Bool) :
    ∀ l : List α, ((List.range l.length).filter (fun j => (l.get? j).any p)).length
      = (l.filter p).length := by
  intro l
  induction l with
  | nil => rfl
  | cons a t ih =>
    rw [List.length_cons, List.range_succ_eq_map, List.filter_cons, List.filter_cons]
    have h0 : (((a :: t).get? 0).any p) = p a := rfl
    have hmap : ((List.map Nat.succ (List.range t.length)).filter
        (fun j => ((a :: t).get? j).any p)).length
        = ((List.range t.length).filter (fun j => (t.get? j).any p)).length := by
      rw [← List.countP_eq_length_filter, List.countP_map, ← List.countP_eq_length_filter]
      exact List.countP_congr (fun j hj => Iff.rfl)
    rw [h0]
    cases hpa : p a with
    | true =>
      rw [if_pos rfl, if_pos rfl, List.length_cons, List.length_cons, hmap, ih]
    | false =>
      rw [if_neg (by simp), if_neg (by simp), hmap, ih]

theorem checkTraps_tripwires (ag : Agents) (ev : Event) (s : GameState)
    (hev : ev.eventType = .cardScored) (hpts : 0 < ev.points)
    (hopp : 1 - ev.playerIdx < s.players.length)
    (hsc : ev.playerIdx < s.players.length)
    (hcond : ∀ c ∈ (s.player (1 - ev.playerIdx)).row,
      c.faceUp = true ∨ c = tripwireFaceDown) :
    ∃ s', checkTraps ag ev s = some s' ∧
      (s'.player (1 - ev.playerIdx)).row =
        (s.player (1 - ev.playerIdx)).row.map
          (fun c => if c.faceUp then c else tripwireFaceUp) ∧
      (s'.player (1 - ev.playerIdx)).score = (s.player (1 - ev.playerIdx)).score +
        (((s.player (1 - ev.playerIdx)).row.filter (fun c => ! c.faceUp)).length : Int) ∧
      (s'.player ev.playerIdx).score = (s.player ev.playerIdx).score -
        (((s.player (1 - ev.playerIdx)).row.filter (fun c => ! c.faceUp)).length : Int)
          * ev.points ∧
      (∀ k, k ≠ 1 - ev.playerIdx → (s'.player k).row = (s.player k).row) ∧
      (∀ k, k ≠ 1 - ev.playerIdx → k ≠ ev.playerIdx →
        (s'.player k).score = (s.player k).score) ∧
      (∀ k, (s'.player k).hand = (s.player k).hand) ∧
      s'.players.length = s.players.length ∧
      s'.market = s.market ∧ s'.deck = s.deck ∧ s'.turnCounter = s.turnCounter ∧
      s'.currentPlayer = s.currentPlayer ∧ s'.gameOver = s.gameOver ∧
      s'.activeEffects = s.activeEffects ∧ s'.turnEvents = s.turnEvents ∧
      s'.pendingHandLimitChecks = s.pendingHandLimitChecks := by
  have hne : ev.playerIdx ≠ 1 - ev.playerIdx := by omega
  obtain ⟨s', h1, hplen, hmapIn, hmapOut, hrlen, hscO, hscS, hrows, hscoth,
    hhands, hmkt, hdk, htc, hcp, hgo, hae, hte, hphc⟩ :=
    checkTrapsAux_tripwires ag ev (1 - ev.playerIdx) hev hne hpts
      (List.range (s.player (1 - ev.playerIdx)).row.length) s (List.nodup_range _)
      hopp hsc
      (fun j hj c hc => hcond c (List.get?_mem hc))
  have hcnt := count_get?_filter (fun c => ! c.faceUp) (s.player (1 - ev.playerIdx)).row
  refine ⟨s', h1, ?_, ?_, ?_, hrows, hscoth, hhands, hplen, hmkt, hdk, htc, hcp,
    hgo, hae, hte, hphc⟩
  · apply List.ext_get?
    intro n
    by_cases hn : n < (s.player (1 - ev.playerIdx)).row.length
    · rw [hmapIn n (List.mem_range.mpr hn), List.get?_map]
    · rw [List.get?_eq_none.mpr, List.get?_eq_none.mpr]
      · rw [List.length_map]
        omega
      · omega
  · rw [hscO, hcnt]
  · rw [hscS, hcnt]

/-- C1 counterexample:  With `max_turns = 10` and `turn_counter = 11`
(already past the spec threshold `turn_counter > max_turns`), `play_turn`
still returns continue and does not set `game_over`: the code's end check is
`turn_counter >= max_turns * 2`, not `turn_counter > max_turns`. -/
theorem C1_counterexample_turn_11_continues :
    c1CexState.turnCounter > 10 ∧
      (playTurn id 10 ⟨agentRightDeck, agentRightDeck⟩ c1CexState).map Prod.fst
        = some true ∧
      (playTurn id 10 ⟨agentRightDeck, agentRightDeck⟩ c1CexState).map
        (fun r => r.2.gameOver) = some false := by
  decide

/-- C1 (corrected):  `play_turn` ends the game (returns `False`, sets
`game_over`, and applies the delayed patience scoring via `_end_game`)
exactly when `turn_counter ≥ max_turns * 2` at the end-check, not when
`turn_counter > max_turns` as the spec says; below the doubled threshold it
returns continue with `game_over` still clear.  (`turn_counter` only
advances when control returns to player 0, so the code's threshold counts
`max_turns` rounds *per player* from the initial counter value 1.) -/
theorem C1_end_condition (gshuffle : List Card → List Card) (mt : Int)
    (ag : Agents) (s : GameState) (b : Bool) (s2 : GameState)
    (hgo : s.gameOver = false) (h : playTurn gshuffle mt ag s = some (b, s2)) :
    (s.turnCounter ≥ mt * 2 →
      b = false ∧ s2.gameOver = true ∧ ∃ t, PresPlay s t ∧ s2 = endGame t) ∧
    (s.turnCounter < mt * 2 → b = true ∧ s2.gameOver = false) := by
  obtain ⟨s5, hp, hcase⟩ := playTurn_shape gshuffle mt ag s b s2 hgo h
  rcases hcase with ⟨hge, hb, hse⟩ | ⟨hlt, hb, hse⟩
  · refine ⟨fun _ => ⟨hb, ?_, s5, hp, hse⟩, fun hltc => absurd hge (not_le.mpr hltc)⟩
    rw [hse]
    exact (endGame_facts s5).1
  · refine ⟨fun hgec => absurd hgec hlt, fun _ => ⟨hb, ?_⟩⟩
    rw [hse]
    show s5.gameOver = false
    rw [hp.2.1, hgo]

/-- C1 witness:  At `turn_counter = 20 = max_turns * 2` the hypotheses
of `C1_end_condition` hold for the concrete `c1EndState`, and the turn ends
the game. -/
theorem C1_end_condition_witness :
    c1EndState.gameOver = false ∧ c1EndState.turnCounter ≥ 10 * 2 ∧
      c1Out.1 = false ∧ c1Out.2.gameOver = true := by
  have h : playTurn id 10 ⟨agentRightDeck, agentRightDeck⟩ c1EndState
      = some (c1Out.1, c1Out.2) := by decide
  have hc := (C1_end_condition id 10 ⟨agentRightDeck, agentRightDeck⟩ c1EndState
    c1Out.1 c1Out.2 rfl h).1 (by decide)
  exact ⟨rfl, by decide, hc.1, hc.2.1⟩

/-- C2 counterexample:  The loop of `_check_traps` has no `break`: with
two face-down tripwires in the opponent row, one `card_scored` event flips
*both* face-up, the trap owner gains 2 (1 per tripwire) and the scorer loses
2·2 = 4 — the spec says only the first matching trap may fire. -/
theorem C2_counterexample_both_traps_fire :
    (checkTraps ⟨agentRightDeck, agentRightDeck⟩ twoTrapEvent twoTrapState).map
      (fun t => ((t.player 1).row.map (fun c => c.faceUp),
        (t.player 1).score, (t.player 0).score))
    = some ([true, true], 2, -4) := by
  decide

/-- C2 (corrected):  The scan of `_check_traps` visits the opponent row
in order, but fires *every* face-down trap whose predicate holds, not only
the first: on a `card_scored` event against a row of face-up cards and clean
face-down tripwires, every face-down tripwire flips face-up, the owner
scores +1 per tripwire, and the scorer loses `points` per tripwire. -/
theorem C2_trap_scan_fires_every_tripwire (ag : Agents) (ev : Event)
    (s : GameState)
    (hev : ev.eventType = .cardScored) (hpts : 0 < ev.points)
    (hopp : 1 - ev.playerIdx < s.players.length)
    (hsc : ev.playerIdx < s.players.length)
    (hcond : ∀ c ∈ (s.player (1 - ev.playerIdx)).row,
      c.faceUp = true ∨ c = tripwireFaceDown) :
    ∃ t, checkTraps ag ev s = some t ∧
      (t.player (1 - ev.playerIdx)).row =
        (s.player (1 - ev.playerIdx)).row.map
          (fun c => if c.faceUp then c else tripwireFaceUp) ∧
      (t.player (1 - ev.playerIdx)).score = (s.player (1 - ev.playerIdx)).score +
        (((s.player (1 - ev.playerIdx)).row.filter
          (fun c => ! c.faceUp)).length : Int) ∧
      (t.player ev.playerIdx).score = (s.player ev.playerIdx).score -
        (((s.player (1 - ev.playerIdx)).row.filter
          (fun c => ! c.faceUp)).length : Int) * ev.points := by
  obtain ⟨t, h1, hrow, hscO, hscS, -⟩ :=
    checkTraps_tripwires ag ev s hev hpts hopp hsc hcond
  exact ⟨t, h1, hrow, hscO, hscS⟩

/-- C2 witness:  The amended scan law instantiated at the concrete
two-tripwire scenario. -/
theorem C2_trap_scan_witness :
    ∃ t, checkTraps ⟨agentRightDeck, agentRightDeck⟩ twoTrapEvent twoTrapState
        = some t ∧
      (t.player (1 - twoTrapEvent.playerIdx)).row =
        (twoTrapState.player (1 - twoTrapEvent.playerIdx)).row.map
          (fun c => if c.faceUp then c else tripwireFaceUp) ∧
      (t.player (1 - twoTrapEvent.playerIdx)).score =
        (twoTrapState.player (1 - twoTrapEvent.playerIdx)).score +
        (((twoTrapState.player (1 - twoTrapEvent.playerIdx)).row.filter
          (fun c => ! c.faceUp)).length : Int) ∧
      (t.player twoTrapEvent.playerIdx).score =
        (twoTrapState.player twoTrapEvent.playerIdx).score -
        (((twoTrapState.player (1 - twoTrapEvent.playerIdx)).row.filter
          (fun c => ! c.faceUp)).length : Int) * twoTrapEvent.points :=
  C2_trap_scan_fires_every_tripwire ⟨agentRightDeck, agentRightDeck⟩ twoTrapEvent
    twoTrapState rfl (by decide) (by decide) (by decide) (by decide)

/-!
## Claim C7: tripwire cancels a center trigger's score
-/

/-- C7 (confirmed):  A center trigger of a face-up Calibration Unit that
scores 2 while the opponent row holds exactly one clean face-down tripwire
(all other opponent cards face-up): the trigger runs, the scorer's net score
change is 0 (+2 from the effect, −2 from the popped `cancel_score`), the
trap owner gains exactly 1, and the tripwire is face-up afterwards. -/
theorem C7_tripwire_cancels_center_score (gshuffle : List Card → List Card)
    (ag : Agents) (p : Nat) (s : GameState) (c : CardInPlay)
    (hplen : s.players.length = 2) (hp : p < 2)
    (hrow : (s.player p).row.length = 3)
    (hcent : (s.player p).row.get? 1 = some c)
    (hface : c.faceUp = true) (hcard : c.card = cardOf .calibrationUnit)
    (hmix : ∀ x ∈ (s.player (1 - p)).row, x.faceUp = true ∨ x = tripwireFaceDown)
    (hone : ((s.player (1 - p)).row.filter (fun x => ! x.faceUp)).length = 1)
    (hpend : s.pendingHandLimitChecks = []) :
    ∃ t, checkCenterTrigger gshuffle ag p s = some t ∧
      (t.player p).score = (s.player p).score ∧
      (t.player (1 - p)).score = (s.player (1 - p)).score + 1 ∧
      (t.player (1 - p)).row =
        (s.player (1 - p)).row.map
          (fun x => if x.faceUp then x else tripwireFaceUp) := by
  have hplt : p < s.players.length := by omega
  have hoppt : 1 - p < s.players.length := by omega
  have hnp : 1 - p ≠ p := by omega
  have hname : c.card.name = CardName.calibrationUnit := by
    rw [hcard]
    rfl
  have hrun : runEffect gshuffle (ag.get p) ((s.player p).row.length + 1) s p
      (.inRow 1) c = some (2, s, c) := by
    simp only [runEffect, hname]
  unfold checkCenterTrigger
  dsimp only
  rw [if_neg (fun hh => hh hrow)]
  rw [hcent]
  dsimp only
  rw [if_neg (fun hh => hh ⟨hface, by rw [hcard]; rfl⟩)]
  rw [hrun]
  dsimp only
  rw [updateRowCard_eq s p 1 _ c hcent]
  simp only [player_setPlayer_self _ _ _ hplt]
  rw [setPlayer_setPlayer]
  rw [if_pos (by norm_num : (2:Int) > 0)]
  set P3 : PlayerState :=
    { s.player p with
      row := (s.player p).row.set 1
        { c with metadata := { c.metadata with lastCenterScore := some 2 } }
      score := (s.player p).score + 2 } with hP3
  set REC : GameState := (s.setPlayer p P3).recordCardScore c.card.name 2 with hREC
  set EV : Event :=
    { eventType := .cardScored
      playerIdx := p
      cardName := some c.card.name
      points := 2 } with hEV
  set SB : GameState := { REC with turnEvents := REC.turnEvents ++ [EV] } with hSB
  have hSBlen : SB.players.length = s.players.length := by
    rw [hSB, hREC]
    dsimp only [GameState.recordCardScore, GameState.setPlayer]
    exact List.length_set _ _ _
  have hSBopp : SB.player (1 - p) = s.player (1 - p) := by
    rw [hSB, hREC]
    show (s.setPlayer p P3).player (1 - p) = s.player (1 - p)
    exact player_setPlayer_ne _ _ _ _ hnp
  have hSBscorer : SB.player p = P3 := by
    rw [hSB, hREC]
    show (s.setPlayer p P3).player p = P3
    exact player_setPlayer_self _ _ _ hplt
  obtain ⟨t, hct, hrowt, hscOt, hscSt, hrows, hscoth, hhands, hplenT, hmkt, hdk,
    htcT, hcpT, hgoT, haeT, hteT, hphcT⟩ :=
    checkTraps_tripwires ag EV SB rfl (by show (0:Int) < 2; norm_num)
      (by show 1 - p < SB.players.length; rw [hSBlen]; omega)
      (by show p < SB.players.length; rw [hSBlen]; omega)
      (by show ∀ x ∈ (SB.player (1 - p)).row, x.faceUp = true ∨ x = tripwireFaceDown
          rw [hSBopp]
          exact hmix)
  have hphct : t.pendingHandLimitChecks = [] := by
    rw [hphcT, hSB, hREC]
    exact hpend
  have henf : enforcePendingHandLimits ag t = some t := by
    unfold enforcePendingHandLimits
    rw [hphct]
    rfl
  refine ⟨t, ?_, ?_, ?_, ?_⟩
  · rw [hct]
    exact henf
  · have h1 : (t.player p).score = (SB.player p).score -
        (((SB.player (1 - p)).row.filter (fun x => ! x.faceUp)).length : Int) * 2 :=
      hscSt
    rw [hSBscorer, hSBopp, hone, hP3] at h1
    rw [h1]
    dsimp only
    push_cast
    ring
  · have h2 : (t.player (1 - p)).score = (SB.player (1 - p)).score +
        (((SB.player (1 - p)).row.filter (fun x => ! x.faceUp)).length : Int) :=
      hscOt
    rw [hSBopp, hone] at h2
    rw [h2]
    push_cast
    ring
  · have h3 : (t.player (1 - p)).row = (SB.player (1 - p)).row.map
        (fun x => if x.faceUp then x else tripwireFaceUp) := hrowt
    rw [hSBopp] at h3
    exact h3

/-- C7 witness:  The tripwire cancellation law at the concrete
`c7State`. -/
theorem C7_tripwire_witness :
    ∃ t, checkCenterTrigger id ⟨agentRightDeck, agentRightDeck⟩ 0 c7State
        = some t ∧
      (t.player 0).score = (c7State.player 0).score ∧
      (t.player 1).score = (c7State.player 1).score + 1 ∧
      (t.player 1).row = (c7State.player 1).row.map
        (fun x => if x.faceUp then x else tripwireFaceUp) :=
  C7_tripwire_cancels_center_score id ⟨agentRightDeck, agentRightDeck⟩ 0 c7State
    cipCal rfl (by decide) (by decide) (by decide) rfl rfl (by decide) (by decide)
    rfl

/-- C5 (code bug):  `CardInPlay.effective_icons` never consults the
`mimicked_icon` metadata that `effect_mimic` writes: setting the tag never
changes the result, and on a face-up Mimic that "became" a gear the code
yields `{chip}` (the printed icon) where the spec's reading yields `{gear}`.
The tag is written at `effects.py:270` and read nowhere in the repository. -/
theorem C5_mimicked_icon_ignored :
    (∀ (c : CardInPlay) (i : Icon),
      CardInPlay.effectiveIcons
          { c with metadata := { c.metadata with mimickedIcon := some i } }
        = c.effectiveIcons) ∧
    mimickedMimic.effectiveIcons = {.chip} ∧
    effectiveIconsSpec mimickedMimic = {.gear} :=
  ⟨fun c i => rfl, by decide, by decide⟩

/-- C6 (code bug):  `effect_recruiter` shuffles the deck with the
*global* `random` module (`import random; random.shuffle(state.deck)`), not
the engine's seeded `self.rng`.  In the embedding the global generator's
permutation is the explicit `gshuffle` parameter; with everything else held
fixed (state, seed-derived data, agents), two different global permutations
give two different decks, so the run is not a function of the seed and
configuration alone. -/
theorem C6_recruiter_shuffle_not_seeded :
    (runEffect id agentRightDeck 1 c6State 0 .offRow recruiterCip).map
        (fun r => r.2.1.deck) = some [cardOf .mimic, cardOf .embargo] ∧
    (runEffect List.reverse agentRightDeck 1 c6State 0 .offRow recruiterCip).map
        (fun r => r.2.1.deck) = some [cardOf .embargo, cardOf .mimic] ∧
    ([cardOf .mimic, cardOf .embargo] : List Card)
      ≠ [cardOf .embargo, cardOf .mimic] := by
  decide

/-- C8 counterexample:  When the center Chain Reaction is structurally
equal to its left neighbor, Python's `row.index(card)` resolves to index 0,
so the triggered card believes it has no left neighbor: the effect scores
only 2 and runs no left effect at all, although the card immediately to its
left *is* a face-up CENTER card (which the claim says is run exactly once). -/
theorem C8_counterexample_duplicate_alias :
    (runEffect id agentRightDeck 4 c8DupState 0 (.inRow 1) crCip).map
        (fun r => (r.1, r.2.1)) = some (2, c8DupState) := by
  decide

/-- C8 (corrected):  Chain reaction is a single hop — but only once the
triggered object is structurally distinct from its left neighbor (so that
`row.index` finds it).  For a row `[l, c, x]` whose center `c` is a Chain
Reaction and whose left neighbor `l` is a *distinct* face-up Chain Reaction,
the effect runs the left effect exactly once and stops: for every fuel
`n + 2` the result is score `2 + 2`, with `last_center_score := 2` written
at index 0 and no further cascade (the result does not depend on `n`). -/
theorem C8_chain_reaction_single_hop (gshuffle : List Card → List Card)
    (ag : AgentModel) (n : Nat) (p : Nat) (s : GameState) (l c x : CardInPlay)
    (hrow : (s.player p).row = [l, c, x])
    (hc : c.card = cardOf .chainReaction) (hl : l.card = cardOf .chainReaction)
    (hlup : l.faceUp = true) (hne : l ≠ c) :
    runEffect gshuffle ag (n + 2) s p (.inRow 1) c
      = some (2 + 2, s.updateRowCard p 0
          (fun cc => { cc with
            metadata := { cc.metadata with lastCenterScore := some 2 } }), c) := by
  have hcname : c.card.name = CardName.chainReaction := by
    rw [hc]
    rfl
  have hlname : l.card.name = CardName.chainReaction := by
    rw [hl]
    rfl
  have hidxc : ([l, c, x] : List CardInPlay).indexOf? c = some 1 := by
    simp [List.indexOf?, List.findIdx?_cons, hne]
  have hidxl : ([l, c, x] : List CardInPlay).indexOf? l = some 0 := by
    simp [List.indexOf?, List.findIdx?_cons]
  rw [show n + 2 = (n + 1) + 1 from rfl]
  simp only [runEffect, hcname]
  rw [hrow, hidxc]
  dsimp only
  rw [if_pos (by norm_num : (1:Nat) > 0)]
  rw [show ([l, c, x] : List CardInPlay).get? (1 - 1) = some l from rfl]
  dsimp only
  rw [if_pos (show (l.faceUp && l.card.cardType == CardType.center) = true by
    rw [hlup, hl]
    rfl)]
  rw [hlname]
  dsimp only
  rw [hidxl]
  dsimp only
  rw [if_neg (by norm_num : ¬ (0:Nat) > 0)]

/-- C8 witness:  The single-hop law at the concrete `c8State`. -/
theorem C8_single_hop_witness :
    runEffect id agentRightDeck (0 + 2) c8State 0 (.inRow 1) crCip
      = some (2 + 2, c8State.updateRowCard 0 0
          (fun cc => { cc with
            metadata := { cc.metadata with lastCenterScore := some 2 } }), crCip) :=
  C8_chain_reaction_single_hop id agentRightDeck 0 0 c8State crMarked crCip cipCal
    rfl rfl rfl rfl (by decide)

/-!
## Claim C9: the draw phase skips without touching state
-/

/-- C9 (confirmed):  When the deck is empty and the market is empty or
embargoed for the current player, `_handle_draw` returns at once with the
state untouched: in particular the hand-limit discard at its end does not
run, so an oversized hand survives the draw phase. -/
theorem C9_draw_skip_frame (ag : Agents) (p : Nat) (s : GameState)
    (hdeck : s.deck = [])
    (hmkt : s.market = [] ∨ s.hasEmbargo p = true) :
    handleDraw ag p s = some s := by
  unfold handleDraw
  dsimp only
  rw [if_pos]
  constructor
  · simp [hdeck]
  · rcases hmkt with hm | he
    · intro hcm
      exact hcm.1 (by simp [hm])
    · intro hcm
      exact hcm.2 (by simp [he])

/-- C9 witness:  The skip frame at the concrete `c9State`: the 3-card
hand persists through the draw phase. -/
theorem C9_draw_skip_witness :
    handleDraw ⟨agentRightDeck, agentRightDeck⟩ 0 c9State = some c9State ∧
      (c9State.player 0).hand.length > 2 :=
  ⟨C9_draw_skip_frame ⟨agentRightDeck, agentRightDeck⟩ 0 c9State rfl (Or.inl rfl),
    by decide⟩

theorem perm_eraseIdx_append {α : Type} [DecidableEq α] (l : List α) (i : Nat)
    (h : i < l.length) :
    (l.eraseIdx i ++ [l.get ⟨i, h⟩]).Perm l := by
  refine (List.perm_append_singleton _ _).trans ?_
  refine (List.Perm.cons _ (List.erase_getElem h).symm).trans ?_
  exact (List.perm_cons_erase (List.getElem_mem h)).symm

/-- C10 (confirmed):  A play blocked by a `boomerang_cooldown` or
`roadblock` active effect: `_play_card` reports no pushed card and leaves
rows, market, deck and both scores untouched; the hand keeps the same
multiset of cards, with the blocked card moved to the last position. -/
theorem C10_blocked_play_frame (gshuffle : List Card → List Card) (ag : Agents)
    (action : PlayAction) (s : GameState)
    (hidx : action.handIndex < (s.player s.currentPlayer).hand.length)
    (hp : s.currentPlayer < s.players.length)
    (hblk :
      s.activeEffects.any (fun e =>
        e.effectType == .boomerangCooldown && e.playerIdx == s.currentPlayer &&
          e.cardName == some ((s.player s.currentPlayer).hand.get
            ⟨action.handIndex, hidx⟩).name) = true ∨
      s.activeEffects.any (fun e =>
        e.effectType == .roadblock && e.playerIdx == s.currentPlayer &&
          e.blockedSide == some action.side) = true) :
    ∃ t, playCard gshuffle ag action s = some (none, t) ∧
      (∀ k, (t.player k).row = (s.player k).row) ∧
      t.market = s.market ∧ t.deck = s.deck ∧
      (∀ k, (t.player k).score = (s.player k).score) ∧
      (t.player s.currentPlayer).hand.Perm (s.player s.currentPlayer).hand ∧
      (t.player s.currentPlayer).hand.getLast?
        = some ((s.player s.currentPlayer).hand.get ⟨action.handIndex, hidx⟩) ∧
      (∀ k, k ≠ s.currentPlayer → (t.player k).hand = (s.player k).hand) := by
  have hconc : ∀ t : GameState,
      t = s.setPlayer s.currentPlayer
        { s.player s.currentPlayer with
          hand := (s.player s.currentPlayer).hand.eraseIdx action.handIndex
            ++ [(s.player s.currentPlayer).hand.get ⟨action.handIndex, hidx⟩] } →
      (∀ k, (t.player k).row = (s.player k).row) ∧
      t.market = s.market ∧ t.deck = s.deck ∧
      (∀ k, (t.player k).score = (s.player k).score) ∧
      (t.player s.currentPlayer).hand.Perm (s.player s.currentPlayer).hand ∧
      (t.player s.currentPlayer).hand.getLast?
        = some ((s.player s.currentPlayer).hand.get ⟨action.handIndex, hidx⟩) ∧
      (∀ k, k ≠ s.currentPlayer → (t.player k).hand = (s.player k).hand) := by
    intro t ht
    subst ht
    refine ⟨?_, rfl, rfl, ?_, ?_, ?_, ?_⟩
    · intro k
      by_cases hk : k = s.currentPlayer
      · subst hk
        rw [player_setPlayer_self _ _ _ hp]
      · rw [player_setPlayer_ne _ _ _ _ hk]
    · intro k
      by_cases hk : k = s.currentPlayer
      · subst hk
        rw [player_setPlayer_self _ _ _ hp]
      · rw [player_setPlayer_ne _ _ _ _ hk]
    · rw [player_setPlayer_self _ _ _ hp]
      exact perm_eraseIdx_append _ _ hidx
    · rw [player_setPlayer_self _ _ _ hp]
      exact List.getLast?_concat _
    · intro k hk
      rw [player_setPlayer_ne _ _ _ _ hk]
  unfold playCard
  dsimp only
  rw [if_neg (not_le.mpr hidx)]
  rw [List.get?_eq_get hidx]
  dsimp only
  simp only [player_setPlayer_self _ _ _ hp]
  rw [show (s.setPlayer s.currentPlayer
      { hand := (s.player s.currentPlayer).hand.eraseIdx action.handIndex,
        row := (s.player s.currentPlayer).row,
        score := (s.player s.currentPlayer).score } : GameState).activeEffects
    = s.activeEffects from rfl]
  rw [setPlayer_setPlayer]
  by_cases hb : (s.activeEffects.any fun e =>
      e.effectType == EffectType.boomerangCooldown && e.playerIdx == s.currentPlayer &&
        e.cardName == some ((s.player s.currentPlayer).hand.get
          ⟨action.handIndex, hidx⟩).name) = true
  · rw [if_pos hb]
    exact ⟨_, rfl, hconc _ rfl⟩
  · rcases hblk with hb1 | hb2
    · exact absurd hb1 hb
    · rw [if_neg hb, if_pos hb2]
      exact ⟨_, rfl, hconc _ rfl⟩

/-- C10 witness:  The blocked-play frame at the concrete `c10State`. -/
theorem C10_blocked_play_witness :
    ∃ t, playCard id ⟨agentRightDeck, agentRightDeck⟩ ⟨0, .right, false⟩ c10State
        = some (none, t) ∧
      (∀ k, (t.player k).row = (c10State.player k).row) ∧
      t.market = c10State.market ∧ t.deck = c10State.deck ∧
      (∀ k, (t.player k).score = (c10State.player k).score) ∧
      (t.player 0).hand.Perm (c10State.player 0).hand ∧
      (t.player 0).hand.getLast?
        = some ((c10State.player 0).hand.get ⟨0, by decide⟩) ∧
      (∀ k, k ≠ 0 → (t.player k).hand = (c10State.player k).hand) :=
  C10_blocked_play_frame id ⟨agentRightDeck, agentRightDeck⟩ ⟨0, .right, false⟩
    c10State (by decide) (by decide) (Or.inl (by decide))

/-!
## Claim C3: per-turn size invariants
-/

/-- C3 counterexample:  Two reachable runs violate the spec's size
invariants after a completed turn: the snare diversion appends the played
card to the market without trimming (market grows to 4), and the False Flag
redirect appends the drawn card to the opponent's hand without a limit check
(hand grows to 3).  Both traces start from `initState` on uniform pools, so
they are reachable for every seed. -/
theorem C3_counterexample_limits_exceeded :
    (snareTrace 7).map (fun t => t.market.length) = some 4 ∧
    (flagTrace 5).map (fun t => (t.player 1).hand.length) = some 3 := by
  decide

/-- C3 (corrected):  Of the three size bounds, the row bound is the one
`play_turn` really preserves: if every row has at most 3 cards before a turn,
every row has at most 3 cards after it (hand and market bounds fail, see the
counterexample). -/
theorem C3_rows_bounded (gshuffle : List Card → List Card) (mt : Int)
    (ag : Agents) (s : GameState) (b : Bool) (s2 : GameState)
    (hgo : s.gameOver = false)
    (hrows : ∀ i, (s.player i).row.length ≤ 3)
    (h : playTurn gshuffle mt ag s = some (b, s2)) :
    ∀ i, (s2.player i).row.length ≤ 3 := by
  obtain ⟨s5, hp, hcase⟩ := playTurn_shape gshuffle mt ag s b s2 hgo h
  have h5 : ∀ i, (s5.player i).row.length ≤ 3 := fun i =>
    le_trans (hp.2.2.2 i) (max_le (hrows i) (le_refl 3))
  rcases hcase with ⟨-, -, hse⟩ | ⟨-, -, hse⟩
  · intro i
    rw [hse]
    exact le_trans ((endGame_facts s5).2.2.2 i) (h5 i)
  · intro i
    rw [hse]
    exact h5 i

/-- C3 witness:  The row bound through a concrete turn. -/
theorem C3_rows_bounded_witness :
    (c3Out.2.player 0).row.length ≤ 3 ∧ (c3Out.2.player 1).row.length ≤ 3 := by
  have h : playTurn id 10 ⟨agentRightDeck, agentRightDeck⟩ c1CexState
      = some (c3Out.1, c3Out.2) := by decide
  have hc := C3_rows_bounded id 10 ⟨agentRightDeck, agentRightDeck⟩ c1CexState
    c3Out.1 c3Out.2 rfl
    (fun i => match i with
      | 0 => by decide
      | 1 => by decide
      | m + 2 => Nat.zero_le 3) h
  exact ⟨hc 0, hc 1⟩

/-- C4 counterexample:  Player 1 triggers Embargo on turn counter 3
(the effect expires at 4), but the counter increments to 4 as soon as
control passes back to player 0, so `has_embargo(0)` is already false on
player 0's very next turn: player 0 draws the market card unhindered (the
market shrinks from 1 to 0 during that turn), where the spec says the
opponent's next draw cannot choose the market. -/
theorem C4_counterexample_embargo_skips_opponent :
    c4Mid.activeEffects = [⟨.embargo, 1, none, none, some 4⟩] ∧
    c4Mid.currentPlayer = 0 ∧ c4Mid.turnCounter = 4 ∧
    c4Mid.hasEmbargo 0 = false ∧
    c4Mid.market.length = 1 ∧ c4End.market.length = 0 ∧
    (c4End.player 0).hand.length = 1 := by
  decide

/-- C4 (corrected):  What the embargo machinery really guarantees: an
embargo effect of player `q` with expiry `e` locks the market for the other
player exactly while `turn_counter < e` and never for its owner; and the
turn counter advances only when the turn that just ended was player 1's.
Since `effect_embargo` sets `e = turn_counter + 1`, an embargo played by
player 0 blocks player 1 for exactly one turn, while one played by player 1
never blocks player 0 (the counter reaches `e` before player 0 draws). -/
theorem C4_embargo_one_turn_window (gshuffle : List Card → List Card) (mt : Int)
    (ag : Agents) (s : GameState) (e : Int) (q p : Nat) (b : Bool)
    (s2 : GameState) (hqp : q ≠ p)
    (heff : s.activeEffects = [⟨.embargo, q, none, none, some e⟩])
    (hcp : s.currentPlayer ≤ 1)
    (hgo : s.gameOver = false)
    (h : playTurn gshuffle mt ag s = some (b, s2)) :
    s.hasEmbargo p = decide (s.turnCounter < e) ∧
    s.hasEmbargo q = false ∧
    (b = true → s2.turnCounter =
      if s.currentPlayer = 1 then s.turnCounter + 1 else s.turnCounter) := by
  refine ⟨?_, ?_, ?_⟩
  · unfold GameState.hasEmbargo
    rw [heff]
    simp [hqp]
  · unfold GameState.hasEmbargo
    rw [heff]
    simp
  · intro hb
    obtain ⟨s5, hp, hcase⟩ := playTurn_shape gshuffle mt ag s b s2 hgo h
    rcases hcase with ⟨-, hb2, -⟩ | ⟨-, -, hse⟩
    · rw [hb] at hb2
      cases hb2
    · rw [hse]
      show (if 1 - s5.currentPlayer = 0 then s5.turnCounter + 1
        else s5.turnCounter) = _
      rw [hp.2.2.1, hp.1]
      by_cases h1 : s.currentPlayer = 1
      · rw [if_pos (by omega), if_pos h1]
      · rw [if_neg (by omega), if_neg h1]

/-- C4 witness:  The embargo window law at the concrete post-embargo
state `c4Mid`. -/
theorem C4_embargo_window_witness :
    c4Mid.hasEmbargo 0 = decide (c4Mid.turnCounter < 4) ∧
    c4Mid.hasEmbargo 1 = false ∧
    (c4Step2.1 = true → c4Step2.2.turnCounter =
      if c4Mid.currentPlayer = 1 then c4Mid.turnCounter + 1
      else c4Mid.turnCounter) := by
  have h : playTurn id 10 c4Agents c4Mid = some (c4Step2.1, c4Step2.2) := by
    decide
  exact C4_embargo_one_turn_window id 10 c4Agents c4Mid 4 1 0 c4Step2.1 c4Step2.2
    (by decide) (by decide) (by decide) (by decide) h

end Shift
